import Mathlib

/-!
Verification development for the query fan-out pipeline
(`stages/stage1_expander.py`, `stages/stage2_router.py`,
`stages/stage3_profiler.py`, `utils/gemini_client.py`,
`utils/cost_tracker.py`, `reporting/content_planner.py`).

The Python code is shallowly embedded: JSON-shaped Python values become the
inductive `PyVal`; Python dict state becomes association lists with
insertion-order semantics; exceptions become `Except String`; the external
collaborators (Gemini text generation, Firecrawl search/scrape) become
oracle values describing the reply or exception each call would produce.
-/

/-- A JSON-shaped Python runtime value (the shapes produced by `json.loads`
plus `None`).  Python dicts are insertion-ordered association lists with
unique keys. -/
inductive PyVal where
  | str (s : String)
  | int (n : Int)
  | bool (b : Bool)
  | list (xs : List PyVal)
  | dict (kvs : List (String × PyVal))
  | none
deriving Inhabited

/-- Python truthiness (`bool(v)`) for the shapes in `PyVal`:
empty containers, empty strings, zero, `False` and `None` are falsy. -/
def pyTruthy : PyVal → Bool
  | .str s => s ≠ ""
  | .int n => n ≠ 0
  | .bool b => b
  | .list xs => !xs.isEmpty
  | .dict kvs => !kvs.isEmpty
  | .none => false

/-- `d.get(k)` on an association-list dict: the value at the first (unique)
occurrence of `k`, if any. -/
def dictGet? (kvs : List (String × PyVal)) (k : String) : Option PyVal :=
  (kvs.find? (fun kv => kv.1 = k)).map (fun kv => kv.2)

/-- `d[k] = v` on an association-list dict: overwrite in place if the key
exists (keeping its position), otherwise append the new key at the end —
Python dict insertion-order semantics. -/
def dictSet (kvs : List (String × PyVal)) (k : String) (v : PyVal) :
    List (String × PyVal) :=
  match kvs with
  | [] => [(k, v)]
  | (k', v') :: rest =>
    if k' = k then (k', v) :: rest else (k', v') :: dictSet rest k v

/-- An item flowing through the pipeline: a Python dict. -/
abbrev Item : Type := List (String × PyVal)

/-- `item.get(k)` with Python's `None` default. -/
def itemGet (item : Item) (k : String) : PyVal :=
  (dictGet? item k).getD .none

/-- Does a `PyVal` dict carry the key `k`?  (`False` on non-dicts.) -/
def pyHasKey (v : PyVal) (k : String) : Bool :=
  match v with
  | .dict kvs => kvs.any (fun kv => kv.1 = k)
  | _ => false

/- ## Cost tracker (`utils/cost_tracker.py`) -/

/-- The mutable state of `CostTracker` that `track_gemini_usage` touches:
`total_cost` and the two counters of `gemini_token_usage`.  Costs are exact
rationals; the Python floats `0.35 / 1_000_000` etc. are represented by the
corresponding rationals (no proved claim depends on the numeric values,
only on which models appear in the pricing table). -/
structure CostTracker where
  total_cost : ℚ
  gemini_input_tokens : ℕ
  gemini_output_tokens : ℕ
deriving DecidableEq

/-- `CostTracker.__init__`: zero cost and zero token counters. -/
def initCostTracker : CostTracker := ⟨0, 0, 0⟩

/-- Pricing entry of `self.gemini_costs`: flat per-token rates, or tiered
rates switching on an input-token cutoff. -/
inductive GeminiPricing where
  | flat (inputRate outputRate : ℚ)
  | tiered (cutoff : ℕ) (inputShort inputLong outputShort outputLong : ℚ)

/-- The pricing table `self.gemini_costs` from `CostTracker.__init__`:
exactly two models. -/
def gemini_costs : List (String × GeminiPricing) :=
  [("gemini-1.5-flash-latest",
      .flat (35 / 100 / 1000000) (105 / 100 / 1000000)),
   ("gemini-1.5-pro-latest",
      .tiered 200000 (625 / 1000 / 1000000) (125 / 100 / 1000000)
        (5 / 1000000) (75 / 10 / 1000000))]

/-- `CostTracker.track_gemini_usage`: always accumulate both token
counters; add to `total_cost` only when the model name has a pricing
entry (tiered entries compare `input_tokens` against the cutoff),
otherwise only log a warning. -/
def track_gemini_usage (st : CostTracker) (model_name : String)
    (input_tokens output_tokens : ℕ) : CostTracker :=
  let st' := { st with
    gemini_input_tokens := st.gemini_input_tokens + input_tokens,
    gemini_output_tokens := st.gemini_output_tokens + output_tokens }
  match (gemini_costs.find? (fun kv => kv.1 = model_name)).map
      (fun kv => kv.2) with
  | some (GeminiPricing.flat ir or') =>
    { st' with total_cost :=
        st'.total_cost + (input_tokens * ir + output_tokens * or') }
  | some (GeminiPricing.tiered cutoff is il os ol) =>
    if input_tokens ≤ cutoff then
      { st' with total_cost :=
          st'.total_cost + (input_tokens * is + output_tokens * os) }
    else
      { st' with total_cost :=
          st'.total_cost + (input_tokens * il + output_tokens * ol) }
  | Option.none => st'

/- ## Gemini client (`utils/gemini_client.py`) -/

/-- Default `model_name` of `call_gemini_api`. -/
def defaultGeminiModel : String := "gemini-2.5-pro"

/-- The outcome of one `generate_content` round trip, seen at the
`call_gemini_api` boundary:
* `raises`: the API call (or reading `response.text`) raised — the
  exception propagates out of `call_gemini_api`;
* `returns usage raw parsed`: a reply with optional usage metadata,
  raw text `raw`, and `parsed` abstracting what `json.loads` yields on
  the cleaned raw text (`Option.none` = `json.JSONDecodeError`). -/
inductive GeminiCallOutcome where
  | raises (msg : String)
  | returns (usage : Option (ℕ × ℕ)) (raw : String) (parsed : Option PyVal)

/-- The cost-tracker effect of `call_gemini_api`: on a reply with usage
metadata, `track_gemini_usage` runs with the call's model name; a raised
call or absent metadata leaves the tracker unchanged. -/
def geminiCostUpdate (model : String) (o : GeminiCallOutcome)
    (st : CostTracker) : CostTracker :=
  match o with
  | .raises _ => st
  | .returns usage _ _ =>
    match usage with
    | some (itok, otok) => track_gemini_usage st model itok otok
    | Option.none => st

/-- The value `call_gemini_api` returns (or the exception it re-raises).
With `response_mime_type='application/json'` (`mimeJson = true`) the parsed
JSON is returned; a `JSONDecodeError` falls back to the error dict
`{"error": "Failed to parse JSON", "raw_response": raw}` without raising.
With any other mime type the raw text is returned as a string. -/
def geminiReply (mimeJson : Bool) (o : GeminiCallOutcome) :
    Except String PyVal :=
  match o with
  | .raises msg => .error msg
  | .returns _ raw parsed =>
    if mimeJson then
      match parsed with
      | some v => .ok v
      | Option.none =>
        .ok (.dict [("error", .str "Failed to parse JSON"),
                    ("raw_response", .str raw)])
    else .ok (.str raw)

/-- `call_gemini_api`: the cost-tracker update paired with the returned
value / re-raised exception.  The two components are split into
`geminiCostUpdate` and `geminiReply` so that theorems can state that the
returned value never depends on the tracker state. -/
def call_gemini_api (st : CostTracker) (model_name : String)
    (mimeJson : Bool) (o : GeminiCallOutcome) :
    CostTracker × Except String PyVal :=
  (geminiCostUpdate model_name o st, geminiReply mimeJson o)

/- ## Configuration and backoff (`stages/stage3_profiler.py`) -/

/-- The five environment-configured constants of `stage3_profiler.py`,
with their defaults. -/
structure Config where
  max_search_results : ℕ := 10
  min_scrapable_results : ℕ := 2
  initial_scrape_attempts : ℕ := 3
  initial_delay : ℕ := 5
  max_retries : ℕ := 4

/-- All defaults: `MAX_SEARCH_RESULTS=10`, `MIN_SCRAPABLE_RESULTS=2`,
`INITIAL_SCRAPE_ATTEMPTS=3`, `INITIAL_DELAY=5`, `MAX_RETRIES=4`. -/
def defaultConfig : Config := {}

/-- One attempt of a Firecrawl call: the returned value or the raised
exception's message. -/
inductive AttemptResult (α : Type) where
  | ok (v : α)
  | err (msg : String)
deriving DecidableEq

/-- Python `str.lower()` restricted to ASCII, which covers every string it
is applied to here (exception messages matched against ASCII patterns, and
sub-query text matched against the ASCII keyword table). -/
def asciiLowerChar (c : Char) : Char :=
  if 65 ≤ c.toNat ∧ c.toNat ≤ 90 then Char.ofNat (c.toNat + 32) else c

/-- `asciiLowerChar` over a whole string. -/
def asciiLower (s : String) : String := String.mk (s.data.map asciiLowerChar)

/-- Python slicing `s[:n]`, by code points. -/
def pyTake (s : String) (n : ℕ) : String := String.mk (s.data.take n)

/-- Does the character list `text` start with `pat`? -/
def charsStartWith : List Char → List Char → Bool
  | [], _ => true
  | _ :: _, [] => false
  | p :: ps, c :: cs => p = c && charsStartWith ps cs

/-- Python substring containment `pat in text` on character lists. -/
def charsHaveSub (pat : List Char) : List Char → Bool
  | [] => charsStartWith pat []
  | c :: cs => charsStartWith pat (c :: cs) || charsHaveSub pat cs

/-- The rate-limit test of `_firecrawl_with_backoff`:
`"Rate Limit Exceeded" in str(e) or "rate limit" in str(e).lower()`. -/
def isRateLimitError (msg : String) : Bool :=
  charsHaveSub "Rate Limit Exceeded".toList msg.toList ||
    charsHaveSub "rate limit".toList (asciiLower msg).toList

/-- The retry loop of `_firecrawl_with_backoff`, from attempt index
`attempt` with current `delay`.  Returns the call result (or the
propagated exception) together with the list of sleeps performed.
A rate-limited failure before the last attempt (`attempt < maxRetries - 1`,
written `attempt + 1 < maxRetries`) sleeps `delay` and doubles it; the
last attempt's rate-limited failure, and any non-rate-limit failure,
re-raise immediately.  (The trailing `return None` of the Python function
is unreachable for `MAX_RETRIES ≥ 1`: every loop iteration returns or
raises.)  `fuel` only bounds the structural recursion; the caller passes
`maxRetries`, which never expires before the `attempt + 1 < maxRetries`
guard fails, so the fuel-exhausted branch is unreachable. -/
def backoffGo {α : Type} (maxRetries : ℕ) (f : ℕ → AttemptResult α) :
    ℕ → ℕ → ℕ → Except String α × List ℕ
  | fuel, attempt, delay =>
    match f attempt with
    | .ok v => (.ok v, [])
    | .err e =>
      if isRateLimitError e then
        if attempt + 1 < maxRetries then
          match fuel with
          | 0 => (.error e, [])
          | fuel' + 1 =>
            let r := backoffGo maxRetries f fuel' (attempt + 1) (delay * 2)
            (r.1, delay :: r.2)
        else (.error e, [])
      else (.error e, [])

/-- `_firecrawl_with_backoff`: run the attempts from index 0 with
`INITIAL_DELAY`. -/
def firecrawl_with_backoff {α : Type} (cfg : Config)
    (f : ℕ → AttemptResult α) : Except String α × List ℕ :=
  backoffGo cfg.max_retries f cfg.max_retries 0 cfg.initial_delay

/- ## Stage 1: query expansion (`stages/stage1_expander.py`) -/

/-- The fallback dict returned by `expand_query`'s `except` branch, with
the keys in the order of the Python dict literal. -/
def fallback_expansion (query msg : String) : PyVal :=
  .dict [("original_query", .str query),
         ("error", .str msg),
         ("classified_intent", .str "unknown"),
         ("domain", .str "unknown"),
         ("subdomain", .str "unknown"),
         ("risk_profile", .str "unknown"),
         ("identified_slots", .dict []),
         ("projected_latent_intents", .list []),
         ("rewrites_and_diversifications", .list []),
         ("speculative_sub_questions", .list [])]

/-- `v[k] = x` as an expression: succeeds only on dicts; on any other
shape Python raises `TypeError` (modelled as `Option.none`). -/
def pySetItem? (v : PyVal) (k : String) (x : PyVal) : Option PyVal :=
  match v with
  | .dict kvs => some (.dict (dictSet kvs k x))
  | _ => Option.none

/-- Stands for the `TypeError` message raised by item assignment on a
non-dict value (the exact Python wording varies with the type; no claim
depends on it). -/
def typeErrorAssignMsg : String :=
  "TypeError: object does not support item assignment"

/-- `expand_query` (stage 1): one `call_gemini_api` round trip with the
default model and JSON mime type; on a returned value, set
`original_query` on it and return it; if the call raised, or the returned
value rejects item assignment, return `fallback_expansion` built from the
exception message. -/
def expand_query (st : CostTracker) (query : String)
    (o : GeminiCallOutcome) : CostTracker × PyVal :=
  let r := call_gemini_api st defaultGeminiModel true o
  match r.2 with
  | .ok v =>
    match pySetItem? v "original_query" (.str query) with
    | some v' => (r.1, v')
    | Option.none => (r.1, fallback_expansion query typeErrorAssignMsg)
  | .error e => (r.1, fallback_expansion query e)

/- ## Stage 2: sub-query routing (`stages/stage2_router.py`) -/

/-- The three sequence fields of a stage-1 output that `route_subqueries`
reads with `stage1_output.get(key, [])` (an absent key reads as `[]`). -/
structure ExpansionFields where
  rewrites_and_diversifications : List String := []
  speculative_sub_questions : List String := []
  projected_latent_intents : List String := []

/-- The concatenation
`get("rewrites_and_diversifications", []) +
 get("speculative_sub_questions", []) + get("projected_latent_intents", [])`
that `route_subqueries` feeds to `set(...)`. -/
def route_concat (e : ExpansionFields) : List String :=
  e.rewrites_and_diversifications ++ e.speculative_sub_questions ++
    e.projected_latent_intents

/-- What `list(set(xs))` can evaluate to: CPython set iteration order is
unspecified (hash-based, and randomized for strings across runs), so the
faithful embedding is the relation "some duplicate-free enumeration of the
elements of `xs`". -/
def isPySetList (xs ys : List String) : Prop :=
  ys.Nodup ∧ (∀ s ∈ xs, s ∈ ys) ∧ (∀ s ∈ ys, s ∈ xs)

instance (xs ys : List String) : Decidable (isPySetList xs ys) := by
  unfold isPySetList; infer_instance

/-- Modelled from the spec's words for claim comparison only (the spec asks
for "a stable deterministic order, e.g. first-seen"): deduplication that
keeps the first occurrence of each element in order.  The source's
`list(set(...))` is compared against this. -/
def specFirstSeenDedup (l : List String) : List String :=
  go l []
where
  go : List String → List String → List String
  | [], _ => []
  | x :: rest, seen =>
    if x ∈ seen then go rest seen else x :: go rest (x :: seen)

/-- The `ValueError` message of stage 2's list-shape check. -/
def routeNotListMsg : String :=
  "Gemini API did not return a list as expected."

/-- The fallback output of `route_subqueries`' `except` branch: one dict
per sub-query, with `predicted_source_types=["unknown"]`,
`predicted_modality="unknown"` and the exception message as `error`. -/
def route_fallback (sub_queries : List String) (msg : String) :
    List PyVal :=
  sub_queries.map (fun sq =>
    .dict [("sub_query", .str sq),
           ("predicted_source_types", .list [.str "unknown"]),
           ("predicted_modality", .str "unknown"),
           ("error", .str msg)])

/-- `route_subqueries` (stage 2).  `sub_queries` is the enumeration Python's
`list(set(route_concat e))` produced (constrained by `isPySetList` in the
theorems).  Empty input short-circuits to `[]` with no collaborator call.
Otherwise one JSON-mime `call_gemini_api` with the default model: a reply
that is a list is returned as-is (the code checks only `isinstance(...,
list)`); any other reply raises `ValueError`, and that — like a raised
call — lands in the `except` branch producing `route_fallback`. -/
def route_subqueries (st : CostTracker) (_stage1_output : ExpansionFields)
    (sub_queries : List String) (o : GeminiCallOutcome) :
    CostTracker × List PyVal :=
  if sub_queries.isEmpty then (st, [])
  else
    let r := call_gemini_api st defaultGeminiModel true o
    match r.2 with
    | .ok (.list xs) => (r.1, xs)
    | .ok _ => (r.1, route_fallback sub_queries routeNotListMsg)
    | .error e' => (r.1, route_fallback sub_queries e')

/- ## Stage 3: competitive profiling (`stages/stage3_profiler.py`) -/

/-- One element of a search-result list, as stage 3 sees it: it either has
a `.url` attribute or reading `.url` raises `AttributeError`. -/
structure SearchHit where
  url : Option String
deriving DecidableEq

/-- The runtime shapes the search reply cascades through in stage 3:
`None`, a `SearchData` object (whose `.web` is extracted), a dict (whose
`results` entry is extracted when present), a plain list of hits, or some
other non-list value. -/
inductive SVal where
  | pyNone
  | sdata (web : SVal)
  | sdict (kvs : List (String × SVal))
  | slist (hits : List SearchHit)
  | other (tyName : String)

/-- Truthiness of a search reply (`if not search_results`): `None`, empty
lists and empty dicts are falsy; `SearchData` objects and unknown objects
are truthy. -/
def svalTruthy : SVal → Bool
  | .pyNone => false
  | .sdata _ => true
  | .sdict kvs => !kvs.isEmpty
  | .slist hits => !hits.isEmpty
  | .other _ => true

/-- A stand-in for Python's `type(v)` in the "unexpected data type" error
message (the Python message interpolates `str(type(...))`; only the fact
that an error is recorded matters to the claims). -/
def svalTypeName : SVal → String
  | .pyNone => "NoneType"
  | .sdata _ => "SearchData"
  | .sdict _ => "dict"
  | .slist _ => "list"
  | .other t => t

/-- The reply-shape normalization cascade of stage 3 (lines 89-103):
a falsy reply records "No search results found to analyze."; then one
`SearchData → .web` extraction, then one `dict['results']` extraction,
and anything still not a list records the "unexpected data type" error.
`.inl msg` is an error profile message assigned with `continue`;
`.inr hits` proceeds to scraping. -/
def normalize_search (v : SVal) : String ⊕ List SearchHit :=
  if ¬ svalTruthy v then .inl "No search results found to analyze."
  else
    let v1 := match v with
      | .sdata web => web
      | w => w
    let v2 : SVal := match v1 with
      | .sdict kvs =>
        match kvs.find? (fun kv => kv.1 = "results") with
        | some kv => kv.2
        | Option.none => SVal.sdict kvs
      | w => w
    match v2 with
    | .slist hits => .inr hits
    | w => .inl ("Unexpected data type from search API: " ++ svalTypeName w)

/-- `top_urls = [result.url for result in search_results]`: collects the
urls, raising `AttributeError` (modelled message) if any element lacks
`.url`. -/
def extract_urls (hits : List SearchHit) : Except String (List String) :=
  match hits.mapM (fun h => h.url) with
  | some us => .ok us
  | Option.none => .error "AttributeError: search result has no attribute url"

/-- The reply of one `app.scrape` call: a `Document` (with its optional
`markdown`), or some other value. -/
inductive ScrapeReply where
  | document (markdown : Option String)
  | nonDocument
deriving DecidableEq

/-- A successfully scraped page `{url, content}`. -/
structure ScrapedPage where
  url : String
  content : String
deriving DecidableEq

/-- The per-sub-query oracle: attempt sequences for the backed-off search
call and for each url's backed-off scrape call, and the outcome of the one
synthesis `call_gemini_api`. -/
structure ItemEnv where
  searchAttempts : ℕ → AttemptResult SVal
  scrapeAttempts : String → ℕ → AttemptResult ScrapeReply
  gemini : GeminiCallOutcome

/-- The result of `_firecrawl_with_backoff(app.search, ...)` for an item. -/
def search_result_of (cfg : Config) (env : ItemEnv) : Except String SVal :=
  (firecrawl_with_backoff cfg env.searchAttempts).1

/-- The result of `_firecrawl_with_backoff(app.scrape, url=url, ...)`. -/
def scrape_fn (cfg : Config) (env : ItemEnv) (url : String) :
    Except String ScrapeReply :=
  (firecrawl_with_backoff cfg (env.scrapeAttempts url)).1

/-- `isinstance(scrape_data, Document) and scrape_data.markdown`: the
markdown of a successful, truthy-markdown scrape.  A raised scrape (the
`except` around the scrape of one url), a non-`Document` reply, and a
`Document` with `None` or empty markdown all yield `Option.none`
(no page appended). -/
def scrapeSuccess? (r : Except String ScrapeReply) : Option String :=
  match r with
  | .ok (.document (some md)) => if md = "" then Option.none else some md
  | _ => Option.none

/-- The loop state of step 2 (iterative scrape-to-threshold):
`scraped_content`, `attempted_urls` (a Python set, embedded as the list of
urls in attempt order — only membership is consumed), and
`urls_to_scrape_count`. -/
structure ScrapeLoopState where
  scraped : List ScrapedPage
  attempted : List String
  urls_to_scrape_count : ℕ

/-- The inner `for url in urls_for_this_attempt` loop: skip already
attempted urls, mark each fresh url attempted regardless of outcome,
append a page (content truncated to 12000 characters) on a successful
scrape, and `break` (second component `true`) as soon as
`len(scraped_content) >= MIN_SCRAPABLE_RESULTS` right after an append. -/
def scrape_inner_pass (cfg : Config)
    (scrape : String → Except String ScrapeReply) :
    List String → ScrapeLoopState → ScrapeLoopState × Bool
  | [], st => (st, false)
  | url :: rest, st =>
    if url ∈ st.attempted then scrape_inner_pass cfg scrape rest st
    else
      let st1 := { st with attempted := st.attempted ++ [url] }
      match scrapeSuccess? (scrape url) with
      | some md =>
        let st2 := { st1 with
          scraped := st1.scraped ++ [⟨url, pyTake md 12000⟩] }
        if cfg.min_scrapable_results ≤ st2.scraped.length then (st2, true)
        else scrape_inner_pass cfg scrape rest st2
      | Option.none => scrape_inner_pass cfg scrape rest st1

/-- The outer `while len(scraped_content) < MIN_SCRAPABLE_RESULTS and
urls_to_scrape_count <= MAX_SEARCH_RESULTS` loop: one inner pass over
`top_urls[:urls_to_scrape_count]`, then either widen the attempt count by
one (threshold unmet) or `break`.  `fuel` bounds the number of widening
passes; `scrape_loop` supplies enough fuel that it never expires before
the `while` condition fails (each pass either exits or increments
`urls_to_scrape_count`). -/
def scrape_outer (cfg : Config)
    (scrape : String → Except String ScrapeReply) (top_urls : List String) :
    ℕ → ScrapeLoopState → ScrapeLoopState
  | 0, st => st
  | fuel + 1, st =>
    if st.scraped.length < cfg.min_scrapable_results ∧
        st.urls_to_scrape_count ≤ cfg.max_search_results then
      let st' :=
        (scrape_inner_pass cfg scrape
          (top_urls.take st.urls_to_scrape_count) st).1
      if st'.scraped.length < cfg.min_scrapable_results then
        scrape_outer cfg scrape top_urls fuel
          { st' with urls_to_scrape_count := st'.urls_to_scrape_count + 1 }
      else st'
    else st

/-- Step 2 in full: the outer loop from the initial state
(`scraped_content = []`, `attempted_urls = set()`,
`urls_to_scrape_count = INITIAL_SCRAPE_ATTEMPTS`). -/
def scrape_loop (cfg : Config)
    (scrape : String → Except String ScrapeReply) (top_urls : List String) :
    ScrapeLoopState :=
  scrape_outer cfg scrape top_urls
    (cfg.max_search_results + 1 - cfg.initial_scrape_attempts)
    ⟨[], [], cfg.initial_scrape_attempts⟩

/-- `{"error": msg}` — the error profiles stage 3 records on items. -/
def err_profile (msg : String) : PyVal := .dict [("error", .str msg)]

/-- The `ValueError` message of stage 3's malformed-synthesis check. -/
def synthMalformedMsg : String :=
  "Gemini API response was malformed or missing " ++
    "\x27ideal_content_profile\x27."

/-- Python `key in container` (`TypeError` on non-iterables): key
membership for dicts, element equality for lists (a string only equals a
string), substring containment for strings. -/
def pyContains? (v : PyVal) (s : String) : Except String Bool :=
  match v with
  | .dict kvs => .ok (kvs.any (fun kv => kv.1 = s))
  | .list xs =>
    .ok (xs.any (fun x => match x with
      | .str t => t = s
      | _ => false))
  | .str t => .ok (charsHaveSub s.toList t.toList)
  | _ => .error "TypeError: argument is not iterable"

/-- Python `v[k]` with a string key: dict lookup (`KeyError` when
missing); strings and lists reject string indices with `TypeError`. -/
def pyGetItemStr (v : PyVal) (k : String) : Except String PyVal :=
  match v with
  | .dict kvs =>
    match dictGet? kvs k with
    | some x => .ok x
    | Option.none => .error ("KeyError: " ++ k)
  | .str _ => .error "TypeError: string indices must be integers"
  | .list _ => .error "TypeError: list indices must be integers"
  | _ => .error "TypeError: object is not subscriptable"

/-- Step 4 (synthesis): one `call_gemini_api` with the default model and —
as in the source, which omits `response_mime_type` — the `text/plain` mime
type, so the reply is the raw text as a string.  Then
`if analysis_result and 'ideal_content_profile' in analysis_result`
(short-circuit: falsy replies skip the `in`), extracting
`analysis_result['ideal_content_profile']` on success and raising
`ValueError` otherwise.  Exceptions propagate to the per-item handler. -/
def synthesize (env : ItemEnv) : Except String PyVal :=
  match geminiReply false env.gemini with
  | .error e => .error e
  | .ok av =>
    if ¬ pyTruthy av then .error synthMalformedMsg
    else
      match pyContains? av "ideal_content_profile" with
      | .error e => .error e
      | .ok true => pyGetItemStr av "ideal_content_profile"
      | .ok false => .error synthMalformedMsg

/-- Steps 2-4 for one item once `top_urls` is known: run the scrape loop;
with zero scraped pages record the error profile and skip synthesis
(second component: was the synthesis collaborator called?); otherwise
synthesize.  The first component is the value assigned to
`ideal_content_profile` (`.ok`) or the exception reaching the per-item
handler (`.error`). -/
def body_with_urls (cfg : Config) (env : ItemEnv)
    (top_urls : List String) : Except String PyVal × Bool :=
  let st := scrape_loop cfg (scrape_fn cfg env) top_urls
  if st.scraped.isEmpty then
    (.ok (err_profile "Could not scrape top search results."), false)
  else (synthesize env, true)

/-- Steps 1-4 for one item (the body of the per-item `try`): the backed-off
search, the reply normalization, url extraction, then `body_with_urls`. -/
def process_item_body (cfg : Config) (env : ItemEnv) :
    Except String PyVal × Bool :=
  match search_result_of cfg env with
  | .error e => (.error e, false)
  | .ok sv =>
    match normalize_search sv with
    | .inl msg => (.ok (err_profile msg), false)
    | .inr hits =>
      match extract_urls hits with
      | .error e => (.error e, false)
      | .ok top_urls => body_with_urls cfg env top_urls

/-- One iteration of the per-item loop: an item with a falsy or missing
`sub_query` is skipped untouched (`continue`); otherwise the body runs
under the per-item `try`, and both a normal profile value and a caught
exception are written to `ideal_content_profile` (the exception as
`{"error": str(e)}`).  The Bool records whether the synthesis collaborator
was called for this item. -/
def process_item (cfg : Config) (env : ItemEnv) (item : Item) :
    Item × Bool :=
  if ¬ pyTruthy (itemGet item "sub_query") then (item, false)
  else
    match process_item_body cfg env with
    | (.ok prof, g) => (dictSet item "ideal_content_profile" prof, g)
    | (.error e, g) => (dictSet item "ideal_content_profile" (err_profile e), g)

/-- The per-item loop over `stage2_output`, threading the cost tracker:
item `i` uses oracle `envs i`; the tracker is updated exactly when the
synthesis call was made for the item. -/
def profile_items (cfg : Config) (envs : ℕ → ItemEnv) :
    ℕ → CostTracker → List Item → List Item × CostTracker
  | _, st, [] => ([], st)
  | i, st, item :: rest =>
    let r := process_item cfg (envs i) item
    let st' := if r.2 then
        geminiCostUpdate defaultGeminiModel (envs i).gemini st
      else st
    let rest' := profile_items cfg envs (i + 1) st' rest
    (r.1 :: rest'.1, rest'.2)

/-- `profile_content_competitively`: `ConnectionError` when the Firecrawl
client failed to initialize at module load (`app is None`); an empty input
short-circuits to `[]`; otherwise the per-item loop runs and the (mutated
in place, hence positionally corresponding) list is returned. -/
def profile_content_competitively (cfg : Config) (appInitialized : Bool)
    (envs : ℕ → ItemEnv) (st : CostTracker) (stage2_output : List Item) :
    Except String (List Item × CostTracker) :=
  if ¬ appInitialized then .error "Firecrawl client is not initialized."
  else if stage2_output.isEmpty then .ok ([], st)
  else .ok (profile_items cfg envs 0 st stage2_output)

/- ## Clustering (`reporting/content_planner.py`, `_cluster_subqueries`) -/

/-- Python regex `\w` (ASCII range, which covers the fixed keyword set and
lowercased query text): letters, digits, underscore. -/
def isWordChar (c : Char) : Bool := c.isAlphanum || c = '_'

/-- Python regex `\s`: whitespace characters. -/
def isSpaceChar (c : Char) : Bool :=
  c = ' ' || c = '\t' || c = '\n' || c = '\r' || c = '\x0b' || c = '\x0c'

/-- Literal match of the pattern `keyword.replace(' ', r'\s')` at the head
of `text`: each non-space keyword character matches itself, each space
matches one `\s` character.  Returns the remainder of `text` after the
match. -/
def matchKeywordChars : List Char → List Char → Option (List Char)
  | [], rest => some rest
  | _ :: _, [] => Option.none
  | p :: ps, c :: cs =>
    if p = ' ' then
      if isSpaceChar c then matchKeywordChars ps cs else Option.none
    else if p = c then matchKeywordChars ps cs else Option.none

/-- `\b` after the matched span: end of string or a non-word character
(every keyword ends with a word character). -/
def endBoundaryOk : List Char → Bool
  | [] => true
  | c :: _ => !isWordChar c

/-- `\b` before the match position, given the preceding character if any
(every keyword starts with a word character). -/
def startBoundaryOk : Option Char → Bool
  | Option.none => true
  | some c => !isWordChar c

/-- `re.search(r'\b' + keyword.replace(' ', r'\s') + r'\b', text)` as a
Bool: scan every position of `text`, tracking the preceding character for
the leading word boundary. -/
def kwSearchFrom (kw : List Char) : Option Char → List Char → Bool
  | prev, text =>
    (startBoundaryOk prev &&
      (match matchKeywordChars kw text with
       | some rest => endBoundaryOk rest
       | Option.none => false)) ||
    (match text with
     | [] => false
     | c :: cs => kwSearchFrom kw (some c) cs)

/-- Does `keyword` match `text` (already lowercased) at word boundaries? -/
def keyword_matches (keyword text : String) : Bool :=
  kwSearchFrom keyword.toList Option.none text.toList

/-- The fixed, insertion-ordered `cluster_keywords` dict of
`_cluster_subqueries`. -/
def cluster_keywords : List (String × List String) :=
  [("Cost & Sizing",
      ["cost", "price", "cheap", "size", "how much", "pricing"]),
   ("How-To & Logistics",
      ["how to", "pack", "tips", "guide", "organize", "rules",
       "checklist", "plan"]),
   ("Comparison & Alternatives",
      ["vs", "versus", "or", "best", "alternative", "compare", "review"]),
   ("Benefits & Reasons",
      ["why", "benefit", "advantage", "should i"]),
   ("Definitions & Concepts",
      ["what is", "what are", "define", "meaning"]),
   ("Problem & Solution",
      ["prevent", "avoid", "solution", "issue", "fix", "rules",
       "not keep"])]

/-- `any(re.search(...) for keyword in keywords)` for one cluster
definition against the lowercased query. -/
def cluster_def_matches (keywords : List String) (query_lower : String) :
    Bool :=
  keywords.any (fun kw => keyword_matches kw query_lower)

/-- The catch-all cluster name. -/
def generalCluster : String := "General Information"

/-- The cluster a (lowercased) sub-query text is assigned to: the first
cluster definition, in declaration order, with a matching keyword; the
catch-all when none matches. -/
def assign_cluster (query_lower : String) : String :=
  match cluster_keywords.find?
      (fun d => cluster_def_matches d.2 query_lower) with
  | some d => d.1
  | Option.none => generalCluster

/-- `clusters[name].append(p)` on the `defaultdict(list)` embedded as an
insertion-ordered association list: append to an existing entry in place,
or add a new entry at the end. -/
def appendMember (acc : List (String × List Item)) (name : String)
    (p : Item) : List (String × List Item) :=
  match acc with
  | [] => [(name, [p])]
  | (n, ms) :: rest =>
    if n = name then (n, ms ++ [p]) :: rest
    else (n, ms) :: appendMember rest name p

/-- The loop of `_cluster_subqueries` from an accumulator: each profile's
`profile['sub_query']` is read (`KeyError` when absent, `AttributeError`
from `.lower()` when not a string), lowercased and assigned via the
first-match scan; the profile is appended to that cluster's list (the
`break` / catch-all `if not assigned` structure of the source collapses to
`assign_cluster`). -/
def cluster_go (profiles : List Item) (acc : List (String × List Item)) :
    Except String (List (String × List Item)) :=
  match profiles with
  | [] => .ok acc
  | p :: rest =>
    match dictGet? p "sub_query" with
    | some (.str s) =>
      cluster_go rest (appendMember acc (assign_cluster (asciiLower s)) p)
    | some _ => .error "AttributeError: lower"
    | Option.none => .error "KeyError: sub_query"

/-- `_cluster_subqueries` (the leading underscore of the Python name is
dropped): single pass over the profiles starting from an empty
`defaultdict`. -/
def cluster_subqueries (profiles : List Item) :
    Except String (List (String × List Item)) :=
  cluster_go profiles []

/-- The member list of a cluster in the result mapping (`[]` when the
cluster never appeared). -/
def clusterMembers (clusters : List (String × List Item)) (name : String) :
    List Item :=
  match clusters.find? (fun kv => kv.1 = name) with
  | some kv => kv.2
  | Option.none => []

/-- The cluster name an in-data-model profile is assigned to. -/
def item_assigned_cluster (p : Item) : String :=
  match dictGet? p "sub_query" with
  | some (.str s) => assign_cluster (asciiLower s)
  | _ => generalCluster

/- ## Supporting lemmas: backoff -/

/-- If attempts `a, a+1, ..., a+k-1` fail rate-limited and attempt `a+k`
(still within the budget) succeeds, the loop returns the success value
after sleeping `d, 2d, ..., 2^(k-1) d`. -/
theorem backoffGo_rl_then_ok {α : Type} (m : ℕ) (f : ℕ → AttemptResult α)
    (e : ℕ → String) (v : α) :
    ∀ (k a d fuel : ℕ),
      (∀ i, i < k → f (a + i) = .err (e (a + i)) ∧
        isRateLimitError (e (a + i)) = true) →
      f (a + k) = .ok v → a + k < m → m ≤ a + fuel →
      backoffGo m f fuel a d =
        (.ok v, (List.range k).map fun j => d * 2 ^ j) := by
  intro k
  induction k with
  | zero =>
    intro a d fuel _ hok _ _
    unfold backoffGo
    simp only [Nat.add_zero] at hok
    rw [hok]
    simp
  | succ k ih =>
    intro a d fuel hchain hok hlt hfuel
    unfold backoffGo
    have h0 := hchain 0 (Nat.succ_pos k)
    rw [Nat.add_zero] at h0
    rw [h0.1]
    simp only [h0.2, if_true]
    have ha1 : a + 1 < m := by omega
    obtain ⟨fuel', rfl⟩ : ∃ fuel', fuel = fuel' + 1 :=
      ⟨fuel - 1, by omega⟩
    have := ih (a + 1) (d * 2) fuel'
      (fun i hi => by
        have := hchain (i + 1) (by omega)
        simpa [Nat.add_assoc, Nat.add_comm 1 i, Nat.add_left_comm] using this)
      (by simpa [Nat.add_assoc, Nat.add_comm 1 k, Nat.add_left_comm] using hok)
      (by omega) (by omega)
    rw [if_pos ha1]
    dsimp only
    rw [this]
    simp [List.range_succ_eq_map, Function.comp, pow_succ]
    intro j _
    ring

/-- If attempts `a, ..., a+k` all fail rate-limited and `a+k` is the last
attempt of the budget, the loop propagates the final error after sleeping
`d, 2d, ..., 2^(k-1) d`. -/
theorem backoffGo_rl_all {α : Type} (m : ℕ) (f : ℕ → AttemptResult α)
    (e : ℕ → String) :
    ∀ (k a d fuel : ℕ),
      (∀ i, i ≤ k → f (a + i) = .err (e (a + i)) ∧
        isRateLimitError (e (a + i)) = true) →
      a + k + 1 = m → m ≤ a + fuel →
      backoffGo m f fuel a d =
        (.error (e (a + k)), (List.range k).map fun j => d * 2 ^ j) := by
  intro k
  induction k with
  | zero =>
    intro a d fuel hchain hm _
    unfold backoffGo
    have h0 := hchain 0 (Nat.le_refl 0)
    rw [Nat.add_zero] at h0
    rw [h0.1]
    simp only [h0.2, if_true]
    rw [if_neg (by omega)]
    simp
  | succ k ih =>
    intro a d fuel hchain hm hfuel
    unfold backoffGo
    have h0 := hchain 0 (Nat.zero_le _)
    rw [Nat.add_zero] at h0
    rw [h0.1]
    simp only [h0.2, if_true]
    obtain ⟨fuel', rfl⟩ : ∃ fuel', fuel = fuel' + 1 :=
      ⟨fuel - 1, by omega⟩
    have := ih (a + 1) (d * 2) fuel'
      (fun i hi => by
        have := hchain (i + 1) (by omega)
        simpa [Nat.add_assoc, Nat.add_comm 1 i, Nat.add_left_comm] using this)
      (by omega) (by omega)
    rw [if_pos (by omega)]
    dsimp only
    rw [this]
    have hidx : a + 1 + k = a + (k + 1) := by omega
    rw [hidx]
    simp [List.range_succ_eq_map, Function.comp, pow_succ]
    intro j _
    ring

/- ## Claim theorems -/

/-- C5: the backoff wrapper `_firecrawl_with_backoff` satisfies the retry
protocol (for any configuration with at least one attempt; the defaults
are `MAX_RETRIES = 4`, `INITIAL_DELAY = 5`):
(1) a call failing with rate-limit errors on exactly the first
`MAX_RETRIES - 1` attempts and succeeding on the last returns the success
value after sleeping the strictly doubling delays
`INITIAL_DELAY * 2^0, 2^1, ...`;
(2) rate-limit failures on all `MAX_RETRIES` attempts propagate the last
attempt's error to the caller (after the same sleeps);
(3) a non-rate-limit error on the first attempt propagates immediately,
with no retry and no sleep. -/
theorem backoff_retry_protocol {α : Type} (cfg : Config)
    (f : ℕ → AttemptResult α) (e : ℕ → String) (v : α)
    (hm : 1 ≤ cfg.max_retries) :
    ((∀ i, i < cfg.max_retries - 1 →
        f i = .err (e i) ∧ isRateLimitError (e i) = true) →
      f (cfg.max_retries - 1) = .ok v →
      firecrawl_with_backoff cfg f =
        (.ok v, (List.range (cfg.max_retries - 1)).map
          fun j => cfg.initial_delay * 2 ^ j)) ∧
    ((∀ i, i < cfg.max_retries →
        f i = .err (e i) ∧ isRateLimitError (e i) = true) →
      firecrawl_with_backoff cfg f =
        (.error (e (cfg.max_retries - 1)),
         (List.range (cfg.max_retries - 1)).map
          fun j => cfg.initial_delay * 2 ^ j)) ∧
    (∀ msg, f 0 = .err msg → isRateLimitError msg = false →
      firecrawl_with_backoff cfg f = (.error msg, [])) := by
  refine ⟨?_, ?_, ?_⟩
  · intro hchain hok
    unfold firecrawl_with_backoff
    have := backoffGo_rl_then_ok cfg.max_retries f e v (cfg.max_retries - 1)
      0 cfg.initial_delay cfg.max_retries
      (fun i hi => by simpa using hchain i (by omega))
      (by simpa using hok) (by omega) (by omega)
    simpa using this
  · intro hchain
    unfold firecrawl_with_backoff
    have := backoffGo_rl_all cfg.max_retries f e (cfg.max_retries - 1)
      0 cfg.initial_delay cfg.max_retries
      (fun i hi => by simpa using hchain i (by omega))
      (by omega) (by omega)
    simpa using this
  · intro msg h0 hnr
    unfold firecrawl_with_backoff
    unfold backoffGo
    rw [h0]
    simp [hnr]

/-- Attempt oracle failing rate-limited three times, then succeeding. -/
def c5fA : ℕ → AttemptResult ℕ :=
  fun i => if i < 3 then .err "Rate Limit Exceeded" else .ok 7

/-- The error messages of `c5fA`. -/
def c5eA : ℕ → String := fun _ => "Rate Limit Exceeded"

/-- Attempt oracle failing rate-limited on every attempt. -/
def c5fB : ℕ → AttemptResult ℕ :=
  fun _ => .err "Server Rate Limit Exceeded for team"

/-- The error messages of `c5fB`. -/
def c5eB : ℕ → String := fun _ => "Server Rate Limit Exceeded for team"

/-- Attempt oracle failing with a non-rate-limit error. -/
def c5fC : ℕ → AttemptResult ℕ := fun _ => .err "404 not found"

/-- Witness for C5 at the default configuration: concrete oracles
exercising all three branches of `backoff_retry_protocol`. -/
theorem backoff_retry_protocol_witness :
    firecrawl_with_backoff defaultConfig c5fA = (.ok 7, [5, 10, 20]) ∧
    firecrawl_with_backoff defaultConfig c5fB =
      (.error "Server Rate Limit Exceeded for team", [5, 10, 20]) ∧
    firecrawl_with_backoff defaultConfig c5fC = (.error "404 not found", []) := by
  refine ⟨?_, ?_, ?_⟩
  · have := (backoff_retry_protocol defaultConfig c5fA c5eA 7
      (by decide)).1 (by decide) (by decide)
    simpa using this
  · have := (backoff_retry_protocol defaultConfig c5fB c5eB 0
      (by decide)).2.1 (by decide)
    simpa using this
  · exact (backoff_retry_protocol defaultConfig c5fC c5eB 0
      (by decide)).2.2 "404 not found" (by decide) (by decide)

/- ## Supporting definitions and lemmas: cost ledger, expansion -/

/-- `v.get`-style lookup on a `PyVal` dict. -/
def pyDictGet? (v : PyVal) (k : String) : Option PyVal :=
  match v with
  | .dict kvs => dictGet? kvs k
  | _ => Option.none

/-- The `prompt_token_count` tracked for a call outcome (0 when the call
raised or the reply carried no usage metadata). -/
def outcomeInputTokens : GeminiCallOutcome → ℕ
  | .returns (some u) _ _ => u.1
  | _ => 0

/-- The `candidates_token_count` tracked for a call outcome. -/
def outcomeOutputTokens : GeminiCallOutcome → ℕ
  | .returns (some u) _ _ => u.2
  | _ => 0

/-- A run's sequence of `call_gemini_api` invocations, all with the
default model name (as every pipeline stage invokes it): the resulting
cost-tracker state.  Each call is a (mimeJson, outcome) pair. -/
def run_default_calls (calls : List (Bool × GeminiCallOutcome))
    (st : CostTracker) : CostTracker :=
  calls.foldl (fun s c => (call_gemini_api s defaultGeminiModel c.1 c.2).1) st

/-- One default-model call: counters advance by the usage metadata, cost is
untouched (the default model has no pricing entry). -/
theorem geminiCostUpdate_default (o : GeminiCallOutcome) (st : CostTracker) :
    geminiCostUpdate defaultGeminiModel o st =
      ⟨st.total_cost, st.gemini_input_tokens + outcomeInputTokens o,
        st.gemini_output_tokens + outcomeOutputTokens o⟩ := by
  cases o with
  | raises msg => simp [geminiCostUpdate, outcomeInputTokens, outcomeOutputTokens]
  | returns usage raw parsed =>
    cases usage with
    | none => simp [geminiCostUpdate, outcomeInputTokens, outcomeOutputTokens]
    | some u =>
      simp only [geminiCostUpdate, outcomeInputTokens, outcomeOutputTokens]
      rw [show track_gemini_usage st defaultGeminiModel u.1 u.2 =
        ⟨st.total_cost, st.gemini_input_tokens + u.1,
          st.gemini_output_tokens + u.2⟩ from rfl]

/-- Folding any sequence of default-model calls: cost constant, counters
are the sums of the per-call usage. -/
theorem run_default_calls_spec (calls : List (Bool × GeminiCallOutcome)) :
    ∀ st : CostTracker,
      run_default_calls calls st =
        ⟨st.total_cost,
         st.gemini_input_tokens +
           (calls.map (fun c => outcomeInputTokens c.2)).sum,
         st.gemini_output_tokens +
           (calls.map (fun c => outcomeOutputTokens c.2)).sum⟩ := by
  induction calls with
  | nil => intro st; simp [run_default_calls]
  | cons c rest ih =>
    intro st
    simp only [run_default_calls, List.foldl_cons] at *
    rw [show (call_gemini_api st defaultGeminiModel c.1 c.2).1 =
      geminiCostUpdate defaultGeminiModel c.2 st from rfl]
    rw [geminiCostUpdate_default]
    rw [ih]
    simp [List.sum_cons]
    omega

/-- C9: the pipeline stages call `call_gemini_api` without an explicit
model name, so the default identifier `gemini-2.5-pro` is used; that
identifier has no entry in the cost tracker's pricing table, so for any
run (any sequence of default-model calls from the initial tracker)
`total_cost` stays `0.0` while the input/output token counters accumulate
per call.  The last three conjuncts witness this at each embedded stage:
`expand_query`, `route_subqueries` and the stage-3 item loop all leave
`total_cost` unchanged for every oracle. -/
theorem default_model_cost_invariant :
    gemini_costs.find? (fun kv => kv.1 = defaultGeminiModel) = Option.none ∧
    (∀ calls : List (Bool × GeminiCallOutcome),
      (run_default_calls calls initCostTracker).total_cost = 0 ∧
      (run_default_calls calls initCostTracker).gemini_input_tokens =
        (calls.map (fun c => outcomeInputTokens c.2)).sum ∧
      (run_default_calls calls initCostTracker).gemini_output_tokens =
        (calls.map (fun c => outcomeOutputTokens c.2)).sum) ∧
    (∀ (st : CostTracker) (q : String) (o : GeminiCallOutcome),
      (expand_query st q o).1.total_cost = st.total_cost) ∧
    (∀ (st : CostTracker) (e : ExpansionFields) (sq : List String)
        (o : GeminiCallOutcome),
      (route_subqueries st e sq o).1.total_cost = st.total_cost) ∧
    (∀ (cfg : Config) (envs : ℕ → ItemEnv) (i : ℕ) (st : CostTracker)
        (items : List Item),
      (profile_items cfg envs i st items).2.total_cost = st.total_cost) := by
  refine ⟨rfl, ?_, ?_, ?_, ?_⟩
  · intro calls
    rw [run_default_calls_spec]
    simp [initCostTracker]
  · intro st q o
    have hc : (expand_query st q o).1 =
        geminiCostUpdate defaultGeminiModel o st := by
      unfold expand_query
      cases h : geminiReply true o with
      | ok v =>
        simp only [call_gemini_api, h]
        cases hv : pySetItem? v "original_query" (.str q) <;> simp
      | error e =>
        simp only [call_gemini_api, h]
    rw [hc, geminiCostUpdate_default]
  · intro st e sq o
    unfold route_subqueries
    by_cases hsq : sq.isEmpty
    · simp [hsq]
    · simp only [hsq, if_false, Bool.false_eq_true]
      cases h : geminiReply true o with
      | ok v =>
        cases v <;> simp [call_gemini_api, h, geminiCostUpdate_default]
      | error e' =>
        simp [call_gemini_api, h, geminiCostUpdate_default]
  · intro cfg envs i st items
    induction items generalizing i st with
    | nil => simp [profile_items]
    | cons item rest ih =>
      simp only [profile_items]
      by_cases hg : (process_item cfg (envs i) item).2
      · simp only [hg, if_true]
        rw [ih]
        rw [geminiCostUpdate_default]
      · simp only [hg]
        rw [if_neg (by simp [hg])]
        exact ih _ _

/-- C3 counterexample: for the non-empty query "best savings account
rates" and the collaborator outcome "reply received but unparsable as
JSON" (a malformed reply, one of the outcomes the claim quantifies over),
`call_gemini_api` returns its error dict without raising, `expand_query`'s
success path returns it with only `original_query` added, and all three
sequence fields are absent from the result — refuting "the three sequence
fields are all present ... never absent". -/
theorem expansion_fields_absent_counterexample :
    "best savings account rates" ≠ "" ∧
    (expand_query initCostTracker "best savings account rates"
        (.returns Option.none "not json at all" Option.none)).2 =
      .dict [("error", .str "Failed to parse JSON"),
             ("raw_response", .str "not json at all"),
             ("original_query", .str "best savings account rates")] ∧
    pyHasKey (expand_query initCostTracker "best savings account rates"
        (.returns Option.none "not json at all" Option.none)).2
      "projected_latent_intents" = false ∧
    pyHasKey (expand_query initCostTracker "best savings account rates"
        (.returns Option.none "not json at all" Option.none)).2
      "rewrites_and_diversifications" = false ∧
    pyHasKey (expand_query initCostTracker "best savings account rates"
        (.returns Option.none "not json at all" Option.none)).2
      "speculative_sub_questions" = false := by
  refine ⟨by decide, rfl, rfl, rfl, rfl⟩

/-- C3 amended: `expand_query` never raises, and on a collaborator failure
that raises (network/API error) it returns the fallback with `error` set
and all three sequence fields present and empty; but on an unparsable JSON
reply the client returns its error dict without raising, and `expand_query`
returns it with `original_query` added, `error` set, and the three
sequence fields absent (downstream routing reads them with `.get(key, [])`
defaults). -/
theorem expansion_failure_fields (st : CostTracker)
    (query msg raw : String) (usage : Option (ℕ × ℕ)) :
    ((expand_query st query (.raises msg)).2 = fallback_expansion query msg) ∧
    (pyDictGet? (fallback_expansion query msg) "projected_latent_intents" =
        some (.list []) ∧
      pyDictGet? (fallback_expansion query msg)
        "rewrites_and_diversifications" = some (.list []) ∧
      pyDictGet? (fallback_expansion query msg) "speculative_sub_questions" =
        some (.list []) ∧
      pyDictGet? (fallback_expansion query msg) "error" = some (.str msg)) ∧
    ((expand_query st query (.returns usage raw Option.none)).2 =
      .dict [("error", .str "Failed to parse JSON"),
             ("raw_response", .str raw),
             ("original_query", .str query)]) ∧
    pyHasKey (expand_query st query (.returns usage raw Option.none)).2
      "projected_latent_intents" = false ∧
    pyHasKey (expand_query st query (.returns usage raw Option.none)).2
      "error" = true := by
  refine ⟨rfl, ⟨rfl, rfl, rfl, rfl⟩, rfl, rfl, rfl⟩

/- ## Supporting lemmas: routing -/

/-- Any enumeration of `set(xs)` has as many elements as `xs` has distinct
elements. -/
theorem isPySetList_length {xs ys : List String} (h : isPySetList xs ys) :
    ys.length = xs.dedup.length := by
  obtain ⟨hnd, h1, h2⟩ := h
  have hperm : ys.Perm xs.dedup := by
    rw [List.perm_ext_iff_of_nodup hnd (List.nodup_dedup xs)]
    intro a
    simp only [List.mem_dedup]
    exact ⟨fun ha => h2 a ha, fun ha => h1 a ha⟩
  exact hperm.length_eq

/-- Membership in the first-seen deduplication worker. -/
theorem mem_specFirstSeenDedup_go (s : String) :
    ∀ (l seen : List String),
      s ∈ specFirstSeenDedup.go l seen ↔ s ∈ l ∧ s ∉ seen := by
  intro l
  induction l with
  | nil => intro seen; simp [specFirstSeenDedup.go]
  | cons x rest ih =>
    intro seen
    by_cases hx : x ∈ seen
    · simp only [specFirstSeenDedup.go, if_pos hx, ih, List.mem_cons]
      constructor
      · rintro ⟨hs, hns⟩; exact ⟨Or.inr hs, hns⟩
      · rintro ⟨hs | hs, hns⟩
        · exact absurd (hs ▸ hx) hns
        · exact ⟨hs, hns⟩
    · simp only [specFirstSeenDedup.go, if_neg hx, List.mem_cons, ih]
      constructor
      · rintro (rfl | ⟨hs, hns⟩)
        · exact ⟨Or.inl rfl, hx⟩
        · exact ⟨Or.inr hs, fun hc => hns (Or.inr hc)⟩
      · rintro ⟨rfl | hs, hns⟩
        · exact Or.inl rfl
        · by_cases hsx : s = x
          · exact Or.inl hsx
          · exact Or.inr ⟨hs, by simp [hsx, hns]⟩

/-- First-seen deduplication keeps exactly the elements of its input. -/
theorem mem_specFirstSeenDedup (s : String) (l : List String) :
    s ∈ specFirstSeenDedup l ↔ s ∈ l := by
  unfold specFirstSeenDedup
  rw [mem_specFirstSeenDedup_go]
  simp

/-- The first-seen deduplication worker never repeats an element. -/
theorem nodup_specFirstSeenDedup_go :
    ∀ (l seen : List String), (specFirstSeenDedup.go l seen).Nodup := by
  intro l
  induction l with
  | nil => intro seen; simp [specFirstSeenDedup.go]
  | cons x rest ih =>
    intro seen
    by_cases hx : x ∈ seen
    · simpa [specFirstSeenDedup.go, if_pos hx] using ih seen
    · simp only [specFirstSeenDedup.go, if_neg hx]
      refine List.Nodup.cons ?_ (ih (x :: seen))
      intro hc
      have := (mem_specFirstSeenDedup_go x rest (x :: seen)).1 hc
      exact this.2 (List.mem_cons_self x seen)

/-- First-seen deduplication is duplicate-free. -/
theorem nodup_specFirstSeenDedup (l : List String) :
    (specFirstSeenDedup l).Nodup := nodup_specFirstSeenDedup_go l []

/-- Two sub-queries produced by stage 1 for the C2 counterexample. -/
def c2fields : ExpansionFields :=
  { rewrites_and_diversifications := ["best booster seats", "car seat laws"] }

/-- An accepted collaborator reply that is a list naming only one of the
two routed sub-queries. -/
def c2reply : GeminiCallOutcome :=
  .returns Option.none "" (some (.list
    [.dict [("sub_query", .str "best booster seats"),
            ("predicted_source_types", .list [.str "product review sites"]),
            ("predicted_modality", .str "Listicles")]]))

/-- C2 counterexample: on the success path (a collaborator reply that is a
list is accepted — the code checks only `isinstance(..., list)`), the
routing operation returns that list as-is.  With two unique input
sub-queries and a one-element reply, the output length is 1 while the
deduplicated union has 2 elements, refuting "returns a list whose length
equals the number of unique sub-queries ... on the success path". -/
theorem routing_cardinality_counterexample :
    isPySetList (route_concat c2fields)
      ["best booster seats", "car seat laws"] ∧
    (route_subqueries initCostTracker c2fields
      ["best booster seats", "car seat laws"] c2reply).2.length = 1 ∧
    (route_concat c2fields).dedup.length = 2 := by
  refine ⟨by decide, rfl, by decide⟩

/-- C2 amended: on the all-failure fallback path (the collaborator call
raises), `route_subqueries` returns one fallback item per unique
sub-query — the output length equals the number of unique sub-queries in
the deduplicated union, and every item names one input sub-query with
`predicted_source_types=["unknown"]`, `predicted_modality="unknown"` and
the error set.  On the success path a list reply is returned as-is, with
no cardinality or naming check. -/
theorem routing_cardinality (st : CostTracker) (e : ExpansionFields)
    (sq : List String) (msg : String)
    (h : isPySetList (route_concat e) sq) :
    ((route_subqueries st e sq (.raises msg)).2.length =
      (route_concat e).dedup.length ∧
     ∀ pv ∈ (route_subqueries st e sq (.raises msg)).2,
       ∃ s ∈ sq,
         pyDictGet? pv "sub_query" = some (.str s) ∧
         pyDictGet? pv "predicted_source_types" =
           some (.list [.str "unknown"]) ∧
         pyDictGet? pv "predicted_modality" = some (.str "unknown") ∧
         pyDictGet? pv "error" = some (.str msg)) ∧
    (∀ (usage : Option (ℕ × ℕ)) (raw : String) (xs : List PyVal),
      ¬ sq.isEmpty →
      (route_subqueries st e sq (.returns usage raw (some (.list xs)))).2 =
        xs) := by
  refine ⟨⟨?_, ?_⟩, ?_⟩
  · by_cases hsq : sq.isEmpty
    · unfold route_subqueries
      rw [if_pos hsq]
      have hlen := isPySetList_length h
      rw [List.isEmpty_iff] at hsq
      subst hsq
      exact hlen
    · unfold route_subqueries
      rw [if_neg hsq]
      simp only [call_gemini_api, geminiReply]
      rw [show (route_fallback sq msg).length = sq.length from
        List.length_map _ _]
      exact isPySetList_length h
  · intro pv hpv
    by_cases hsq : sq.isEmpty
    · unfold route_subqueries at hpv
      rw [if_pos hsq] at hpv
      simp at hpv
    · unfold route_subqueries at hpv
      rw [if_neg hsq] at hpv
      simp only [call_gemini_api, geminiReply] at hpv
      simp only [route_fallback, List.mem_map] at hpv
      obtain ⟨s, hs, rfl⟩ := hpv
      exact ⟨s, hs, rfl, rfl, rfl, rfl⟩
  · intro usage raw xs hsq
    unfold route_subqueries
    rw [if_neg hsq]
    simp [call_gemini_api, geminiReply]

/-- Stage-1 fields with a duplicate across two sequence fields, for the C2
witness. -/
def c2wfields : ExpansionFields :=
  { rewrites_and_diversifications := ["alpha", "beta"],
    speculative_sub_questions := ["alpha"] }

/-- Witness for C2 (amended) at a concrete expansion with three sub-query
occurrences, two of them equal, routed as the set enumeration
`["beta", "alpha"]`. -/
theorem routing_cardinality_witness :
    ((route_subqueries initCostTracker c2wfields ["beta", "alpha"]
        (.raises "boom")).2.length =
      (route_concat c2wfields).dedup.length ∧
     ∀ pv ∈ (route_subqueries initCostTracker c2wfields ["beta", "alpha"]
        (.raises "boom")).2,
       ∃ s ∈ (["beta", "alpha"] : List String),
         pyDictGet? pv "sub_query" = some (.str s) ∧
         pyDictGet? pv "predicted_source_types" =
           some (.list [.str "unknown"]) ∧
         pyDictGet? pv "predicted_modality" = some (.str "unknown") ∧
         pyDictGet? pv "error" = some (.str "boom")) ∧
    (∀ (usage : Option (ℕ × ℕ)) (raw : String) (xs : List PyVal),
      ¬ (["beta", "alpha"] : List String).isEmpty →
      (route_subqueries initCostTracker c2wfields ["beta", "alpha"]
        (.returns usage raw (some (.list xs)))).2 = xs) :=
  routing_cardinality initCostTracker c2wfields ["beta", "alpha"] "boom"
    (by decide)

/-- Stage-1 fields for the C8 counterexample. -/
def c8fields : ExpansionFields :=
  { rewrites_and_diversifications := ["storage unit sizes"],
    speculative_sub_questions := ["climate controlled storage"] }

/-- C8 counterexample: `list(set(...))` does not preserve first-seen order —
CPython set iteration order is unspecified (hash-randomized for strings),
so the embedding constrains it only to `isPySetList`.  The enumeration
`["climate controlled storage", "storage unit sizes"]` is an admissible
routing input for an expansion whose concatenated fields are
`["storage unit sizes", "climate controlled storage"]`, yet differs from
the first-seen deduplication the claim requires. -/
theorem routing_order_counterexample :
    isPySetList (route_concat c8fields)
      ["climate controlled storage", "storage unit sizes"] ∧
    specFirstSeenDedup (route_concat c8fields) =
      ["storage unit sizes", "climate controlled storage"] ∧
    (["climate controlled storage", "storage unit sizes"] : List String) ≠
      specFirstSeenDedup (route_concat c8fields) := by
  refine ⟨by decide, by decide, by decide⟩

/-- C8 amended: the routing stage's input sub-query list is a
duplicate-free enumeration of exactly the union of
`rewrites_and_diversifications`, `speculative_sub_questions` and
`projected_latent_intents` — it has the cardinality of the deduplicated
union and is a permutation of the first-seen deduplication — but its order
is Python's unspecified set order, not guaranteed to be first-seen. -/
theorem routing_dedup_union (e : ExpansionFields) (sq : List String)
    (h : isPySetList (route_concat e) sq) :
    sq.Nodup ∧
    sq.length = (route_concat e).dedup.length ∧
    (∀ s, s ∈ sq ↔ s ∈ e.rewrites_and_diversifications ∨
      s ∈ e.speculative_sub_questions ∨
      s ∈ e.projected_latent_intents) ∧
    sq.Perm (specFirstSeenDedup (route_concat e)) := by
  obtain ⟨hnd, h1, h2⟩ := h
  refine ⟨hnd, isPySetList_length ⟨hnd, h1, h2⟩, ?_, ?_⟩
  · intro s
    constructor
    · intro hs
      have := h2 s hs
      simpa [route_concat] using this
    · intro hs
      exact h1 s (by simpa [route_concat] using hs)
  · rw [List.perm_ext_iff_of_nodup hnd (nodup_specFirstSeenDedup _)]
    intro a
    rw [mem_specFirstSeenDedup]
    exact ⟨fun ha => h2 a ha, fun ha => h1 a ha⟩

/-- Stage-1 fields for the C8 witness. -/
def c8wfields : ExpansionFields :=
  { speculative_sub_questions := ["moving checklist", "packing tips"],
    projected_latent_intents := ["moving checklist"] }

/-- Witness for C8 (amended) at a concrete expansion and a concrete set
enumeration. -/
theorem routing_dedup_union_witness :
    (["packing tips", "moving checklist"] : List String).Nodup ∧
    (["packing tips", "moving checklist"] : List String).length =
      (route_concat c8wfields).dedup.length ∧
    (∀ s, s ∈ (["packing tips", "moving checklist"] : List String) ↔
      s ∈ c8wfields.rewrites_and_diversifications ∨
      s ∈ c8wfields.speculative_sub_questions ∨
      s ∈ c8wfields.projected_latent_intents) ∧
    (["packing tips", "moving checklist"] : List String).Perm
      (specFirstSeenDedup (route_concat c8wfields)) :=
  routing_dedup_union c8wfields ["packing tips", "moving checklist"]
    (by decide)

/-- C1 amended: an item whose scrape-to-threshold loop ends with ZERO
scraped pages (in particular when the URL budget is exhausted with none)
gets `ideal_content_profile = {"error": "Could not scrape top search
results."}` and the synthesis collaborator is not called; but whenever at
least one page was scraped — even when the budget was exhausted below
`MIN_SCRAPABLE_RESULTS` — the synthesis call IS made (the post-loop guard
is `if not scraped_content`, not a threshold check). -/
theorem profiling_zero_scrape (cfg : Config) (env : ItemEnv) (item : Item)
    (sv : SVal) (hits : List SearchHit) (top_urls : List String)
    (hsub : pyTruthy (itemGet item "sub_query") = true)
    (hsearch : search_result_of cfg env = .ok sv)
    (hnorm : normalize_search sv = .inr hits)
    (hurls : extract_urls hits = .ok top_urls) :
    ((scrape_loop cfg (scrape_fn cfg env) top_urls).scraped = [] →
      process_item cfg env item =
        (dictSet item "ideal_content_profile"
          (err_profile "Could not scrape top search results."), false)) ∧
    ((scrape_loop cfg (scrape_fn cfg env) top_urls).scraped ≠ [] →
      (process_item cfg env item).2 = true) := by
  have hbody : process_item_body cfg env = body_with_urls cfg env top_urls := by
    unfold process_item_body
    rw [hsearch]
    dsimp only
    rw [hnorm]
    dsimp only
    rw [hurls]
  constructor
  · intro hempty
    unfold process_item
    rw [if_neg (by simp [hsub])]
    rw [hbody]
    unfold body_with_urls
    rw [if_pos (by simp [hempty])]
  · intro hne
    unfold process_item
    rw [if_neg (by simp [hsub])]
    rw [hbody]
    unfold body_with_urls
    rw [if_neg (by simp [List.isEmpty_iff, hne])]
    cases synthesize env <;> simp

/-- Ten search-result urls for the C1 counterexample. -/
def c1urls : List String :=
  ["u1", "u2", "u3", "u4", "u5", "u6", "u7", "u8", "u9", "u10"]

/-- The corresponding search hits. -/
def c1hits : List SearchHit := c1urls.map (fun u => ⟨some u⟩)

/-- Oracle for the C1 counterexample: the search succeeds with ten urls,
only the first url ever scrapes successfully, and the synthesis
collaborator replies with text lacking the expected key. -/
def c1env : ItemEnv :=
  { searchAttempts := fun _ => .ok (.slist c1hits),
    scrapeAttempts := fun u _ =>
      if u = "u1" then .ok (.document (some "PAGE ONE BODY"))
      else .ok .nonDocument,
    gemini := .returns Option.none "reply without the expected key"
      Option.none }

/-- A routed item for the C1 counterexample. -/
def c1item : Item := [("sub_query", .str "storage units near me")]

/-- C1 counterexample: with the default configuration
(`MIN_SCRAPABLE_RESULTS = 2`) and an item whose loop exhausts the whole
URL budget (`urls_to_scrape_count` ends at `MAX_SEARCH_RESULTS + 1`)
having scraped only 1 page — fewer than the threshold — the synthesis
collaborator IS called for the item, refuting "no synthesis call to the
text-generation collaborator is made for that item". -/
theorem profiling_partial_scrape_counterexample :
    (scrape_loop defaultConfig (scrape_fn defaultConfig c1env)
      c1urls).scraped.length = 1 ∧
    defaultConfig.min_scrapable_results = 2 ∧
    (scrape_loop defaultConfig (scrape_fn defaultConfig c1env)
      c1urls).urls_to_scrape_count = defaultConfig.max_search_results + 1 ∧
    (process_item defaultConfig c1env c1item).2 = true := by
  refine ⟨by decide, by decide, by decide, by decide⟩

/-- Four search-result urls for the C1 witness. -/
def c1wurls : List String := ["w1", "w2", "w3", "w4"]

/-- The corresponding search hits. -/
def c1whits : List SearchHit := c1wurls.map (fun u => ⟨some u⟩)

/-- Oracle for the C1 witness: every scrape returns a non-document, so no
page is ever collected. -/
def c1wenv : ItemEnv :=
  { searchAttempts := fun _ => .ok (.slist c1whits),
    scrapeAttempts := fun _ _ => .ok .nonDocument,
    gemini := .raises "synthesis is never reached" }

/-- A routed item for the C1 witness. -/
def c1witem : Item := [("sub_query", .str "rv storage cost")]

/-- Witness for C1 (amended): an item whose every scrape fails gets the
error profile and no synthesis call. -/
theorem profiling_zero_scrape_witness :
    process_item defaultConfig c1wenv c1witem =
      (dictSet c1witem "ideal_content_profile"
        (err_profile "Could not scrape top search results."), false) :=
  (profiling_zero_scrape defaultConfig c1wenv c1witem (.slist c1whits)
    c1whits c1wurls (by decide) rfl rfl rfl).1 (by decide)

/-- Inner pass, one step: an already attempted url is skipped. -/
theorem scrape_inner_pass_cons_mem (cfg : Config)
    (f : String → Except String ScrapeReply) (u : String)
    (l : List String) (st : ScrapeLoopState) (hmem : u ∈ st.attempted) :
    scrape_inner_pass cfg f (u :: l) st = scrape_inner_pass cfg f l st := by
  conv_lhs => unfold scrape_inner_pass
  rw [if_pos hmem]

/-- Inner pass, one step: a fresh url whose scrape yields no usable page
is marked attempted and the pass continues. -/
theorem scrape_inner_pass_cons_fail (cfg : Config)
    (f : String → Except String ScrapeReply) (u : String)
    (l : List String) (st : ScrapeLoopState) (hmem : u ∉ st.attempted)
    (hs : scrapeSuccess? (f u) = Option.none) :
    scrape_inner_pass cfg f (u :: l) st =
      scrape_inner_pass cfg f l { st with attempted := st.attempted ++ [u] } := by
  conv_lhs => unfold scrape_inner_pass
  rw [if_neg hmem, hs]

/-- Inner pass, one step: a fresh url scraping successfully with the
threshold reached by this append breaks out of the pass. -/
theorem scrape_inner_pass_cons_hit (cfg : Config)
    (f : String → Except String ScrapeReply) (u md : String)
    (l : List String) (st : ScrapeLoopState) (hmem : u ∉ st.attempted)
    (hs : scrapeSuccess? (f u) = some md)
    (hth : cfg.min_scrapable_results ≤ st.scraped.length + 1) :
    scrape_inner_pass cfg f (u :: l) st =
      ({ st with
          attempted := st.attempted ++ [u],
          scraped := st.scraped ++ [⟨u, pyTake md 12000⟩] }, true) := by
  conv_lhs => unfold scrape_inner_pass
  rw [if_neg hmem, hs]
  dsimp only
  rw [if_pos (by simpa using hth)]

/-- Inner pass, one step: a successful scrape still below the threshold
appends the page and continues. -/
theorem scrape_inner_pass_cons_miss (cfg : Config)
    (f : String → Except String ScrapeReply) (u md : String)
    (l : List String) (st : ScrapeLoopState) (hmem : u ∉ st.attempted)
    (hs : scrapeSuccess? (f u) = some md)
    (hth : st.scraped.length + 1 < cfg.min_scrapable_results) :
    scrape_inner_pass cfg f (u :: l) st =
      scrape_inner_pass cfg f l
        { st with
            attempted := st.attempted ++ [u],
            scraped := st.scraped ++ [⟨u, pyTake md 12000⟩] } := by
  conv_lhs => unfold scrape_inner_pass
  rw [if_neg hmem, hs]
  dsimp only
  rw [if_neg (by simp; omega)]

/-- A pass over urls that were all already attempted changes nothing. -/
theorem scrape_inner_pass_skip (cfg : Config)
    (f : String → Except String ScrapeReply) :
    ∀ (l : List String) (st : ScrapeLoopState),
      (∀ u ∈ l, u ∈ st.attempted) →
      scrape_inner_pass cfg f l st = (st, false) := by
  intro l
  induction l with
  | nil => intro st _; rfl
  | cons u rest ih =>
    intro st hall
    rw [scrape_inner_pass_cons_mem cfg f u rest st
      (hall u (List.mem_cons_self u rest))]
    exact ih st (fun x hx => hall x (List.mem_cons_of_mem u hx))

/-- A pass over fresh urls that all fail marks them attempted, in order,
and collects nothing. -/
theorem scrape_inner_pass_all_fail (cfg : Config)
    (f : String → Except String ScrapeReply) :
    ∀ (l : List String) (st : ScrapeLoopState),
      l.Nodup → (∀ u ∈ l, u ∉ st.attempted) →
      (∀ u ∈ l, scrapeSuccess? (f u) = Option.none) →
      scrape_inner_pass cfg f l st =
        ({ st with attempted := st.attempted ++ l }, false) := by
  intro l
  induction l with
  | nil => intro st _ _ _; simp [scrape_inner_pass]
  | cons u rest ih =>
    intro st hnd hfresh hfail
    rw [scrape_inner_pass_cons_fail cfg f u rest st
      (hfresh u (List.mem_cons_self u rest))
      (hfail u (List.mem_cons_self u rest))]
    rw [ih { st with attempted := st.attempted ++ [u] }
      (List.Nodup.of_cons hnd)
      (fun x hx => by
        simp only [List.mem_append, List.mem_singleton]
        rintro (hx' | rfl)
        · exact hfresh x (List.mem_cons_of_mem u hx) hx'
        · exact (List.nodup_cons.1 hnd).1 hx)
      (fun x hx => hfail x (List.mem_cons_of_mem u hx))]
    simp

/-- A pass over a concatenation runs the first part, then the second from
the resulting state unless the first broke out. -/
theorem scrape_inner_pass_append (cfg : Config)
    (f : String → Except String ScrapeReply) :
    ∀ (l₁ l₂ : List String) (st : ScrapeLoopState),
      scrape_inner_pass cfg f (l₁ ++ l₂) st =
        (if (scrape_inner_pass cfg f l₁ st).2 then
          scrape_inner_pass cfg f l₁ st
        else scrape_inner_pass cfg f l₂ (scrape_inner_pass cfg f l₁ st).1) := by
  intro l₁
  induction l₁ with
  | nil => intro l₂ st; simp [scrape_inner_pass]
  | cons u rest ih =>
    intro l₂ st
    by_cases hmem : u ∈ st.attempted
    · rw [List.cons_append, scrape_inner_pass_cons_mem cfg f u (rest ++ l₂) st hmem,
        scrape_inner_pass_cons_mem cfg f u rest st hmem]
      exact ih l₂ st
    · cases hs : scrapeSuccess? (f u) with
      | none =>
        rw [List.cons_append,
          scrape_inner_pass_cons_fail cfg f u (rest ++ l₂) st hmem hs,
          scrape_inner_pass_cons_fail cfg f u rest st hmem hs]
        exact ih l₂ _
      | some md =>
        by_cases hth : cfg.min_scrapable_results ≤ st.scraped.length + 1
        · rw [List.cons_append,
            scrape_inner_pass_cons_hit cfg f u md (rest ++ l₂) st hmem hs hth,
            scrape_inner_pass_cons_hit cfg f u md rest st hmem hs hth]
          simp
        · rw [List.cons_append,
            scrape_inner_pass_cons_miss cfg f u md (rest ++ l₂) st hmem hs
              (by omega),
            scrape_inner_pass_cons_miss cfg f u md rest st hmem hs (by omega)]
          exact ih l₂ _

/-- The element at index `j ≥ k` lies in `l.drop k`. -/
theorem get_mem_drop {l : List String} (k j : ℕ) (hk : k ≤ j)
    (hj : j < l.length) : l.get ⟨j, hj⟩ ∈ l.drop k := by
  have h1 : (l.drop k).get ⟨j - k, by rw [List.length_drop]; omega⟩ =
      l.get ⟨j, hj⟩ := by
    simp only [List.get_eq_getElem, List.getElem_drop]
    congr 1
    omega
  rw [← h1]
  exact List.get_mem _ _ _

/-- In a duplicate-free list, the element at index `j ≥ k` does not occur
among the first `k`. -/
theorem get_not_mem_take {l : List String} (hnd : l.Nodup) (k j : ℕ)
    (hk : k ≤ j) (hj : j < l.length) : l.get ⟨j, hj⟩ ∉ l.take k := by
  intro hmem
  exact List.disjoint_take_drop hnd (Nat.le_refl k) hmem
    (get_mem_drop k j hk hj)

/-- One widening pass of the outer loop, driven by an inner-pass result. -/
theorem scrape_outer_step (cfg : Config)
    (f : String → Except String ScrapeReply) (urls : List String)
    (fuel : ℕ) (st st' : ScrapeLoopState) (b : Bool)
    (hguard : st.scraped.length < cfg.min_scrapable_results ∧
      st.urls_to_scrape_count ≤ cfg.max_search_results)
    (hinner : scrape_inner_pass cfg f (urls.take st.urls_to_scrape_count) st =
      (st', b)) :
    scrape_outer cfg f urls (fuel + 1) st =
      (if st'.scraped.length < cfg.min_scrapable_results then
        scrape_outer cfg f urls fuel
          { st' with urls_to_scrape_count := st'.urls_to_scrape_count + 1 }
      else st') := by
  conv_lhs => unfold scrape_outer
  rw [if_pos hguard, hinner]

/-- The C6 scenario configuration: `MIN_SCRAPABLE_RESULTS = 1`, all other
constants at their defaults. -/
def c6cfg : Config := { min_scrapable_results := 1 }

/-- C6: with `MIN_SCRAPABLE_RESULTS = 1` and a search-result list in which
only the 5th URL yields a successful non-empty scrape, the loop widens one
URL at a time (3, then 4, then 5), stops immediately on the first success
with no further widening (`urls_to_scrape_count` ends at 5), has attempted
exactly the first 5 URLs, and never attempts the same URL twice (the
attempt list is duplicate-free). -/
theorem widening_to_fifth_url (urls : List String) (env : ItemEnv)
    (md : String) (h5 : 4 < urls.length) (hnd : urls.Nodup)
    (hfail : ∀ u ∈ urls, u ≠ urls.get ⟨4, h5⟩ →
      scrapeSuccess? (scrape_fn c6cfg env u) = Option.none)
    (hhit : scrapeSuccess? (scrape_fn c6cfg env (urls.get ⟨4, h5⟩)) =
      some md) :
    scrape_loop c6cfg (scrape_fn c6cfg env) urls =
      ⟨[⟨urls.get ⟨4, h5⟩, pyTake md 12000⟩], urls.take 5, 5⟩ ∧
    (urls.take 5).length = 5 ∧
    (urls.take 5).Nodup := by
  have htakeNodup : ∀ k : ℕ, (urls.take k).Nodup :=
    fun k => (List.take_sublist k urls).nodup hnd
  have hfail_take : ∀ k, k ≤ 4 → ∀ u ∈ urls.take k,
      scrapeSuccess? (scrape_fn c6cfg env u) = Option.none := by
    intro k hk u hu
    refine hfail u (List.take_subset k urls hu) ?_
    intro heq
    rw [heq] at hu
    exact get_not_mem_take hnd k 4 hk h5 hu
  have h3 : (3 : ℕ) < urls.length := by omega
  have h4lt : (4 : ℕ) < urls.length := h5
  have ht4 : urls.take 4 = urls.take 3 ++ [urls.get ⟨3, h3⟩] := by
    have := List.take_concat_get' urls 3 h3
    simp only [List.get_eq_getElem]
    exact this.symm
  have ht5 : urls.take 5 = urls.take 4 ++ [urls.get ⟨4, h5⟩] := by
    have := List.take_concat_get' urls 4 h5
    simp only [List.get_eq_getElem]
    exact this.symm
  have hne34 : urls.get ⟨3, h3⟩ ≠ urls.get ⟨4, h5⟩ := by
    intro h
    have := List.Nodup.get_inj_iff hnd |>.1 h
    simp at this
  have e3 : scrape_inner_pass c6cfg (scrape_fn c6cfg env) (urls.take 3)
      ⟨[], [], 3⟩ = (⟨[], urls.take 3, 3⟩, false) := by
    rw [scrape_inner_pass_all_fail c6cfg (scrape_fn c6cfg env)
      (urls.take 3) ⟨[], [], 3⟩ (htakeNodup 3)
      (by intro u _ hc; simp at hc)
      (hfail_take 3 (by omega))]
    simp
  have e4 : scrape_inner_pass c6cfg (scrape_fn c6cfg env) (urls.take 4)
      ⟨[], urls.take 3, 4⟩ = (⟨[], urls.take 4, 4⟩, false) := by
    rw [ht4, scrape_inner_pass_append]
    rw [scrape_inner_pass_skip c6cfg (scrape_fn c6cfg env) (urls.take 3)
      ⟨[], urls.take 3, 4⟩ (fun u hu => hu)]
    simp only [if_false, Bool.false_eq_true]
    rw [scrape_inner_pass_all_fail c6cfg (scrape_fn c6cfg env)
      [urls.get ⟨3, h3⟩] ⟨[], urls.take 3, 4⟩ (by simp)
      (by
        intro u hu
        simp only [List.mem_singleton] at hu
        subst hu
        exact get_not_mem_take hnd 3 3 (Nat.le_refl 3) h3)
      (by
        intro u hu
        simp only [List.mem_singleton] at hu
        subst hu
        exact hfail _ (List.get_mem urls 3 h3) hne34)]
  have e5 : scrape_inner_pass c6cfg (scrape_fn c6cfg env) (urls.take 5)
      ⟨[], urls.take 4, 5⟩ =
      (⟨[⟨urls.get ⟨4, h5⟩, pyTake md 12000⟩], urls.take 5, 5⟩, true) := by
    rw [ht5, scrape_inner_pass_append]
    rw [scrape_inner_pass_skip c6cfg (scrape_fn c6cfg env) (urls.take 4)
      ⟨[], urls.take 4, 5⟩ (fun u hu => hu)]
    simp only [if_false, Bool.false_eq_true]
    rw [scrape_inner_pass_cons_hit c6cfg (scrape_fn c6cfg env)
      (urls.get ⟨4, h5⟩) md [] ⟨[], urls.take 4, 5⟩
      (get_not_mem_take hnd 4 4 (Nat.le_refl 4) h5) hhit
      (by simp [c6cfg])]
    simp
  have s1 : scrape_loop c6cfg (scrape_fn c6cfg env) urls =
      scrape_outer c6cfg (scrape_fn c6cfg env) urls 7
        ⟨[], urls.take 3, 4⟩ := by
    show scrape_outer c6cfg (scrape_fn c6cfg env) urls 8 ⟨[], [], 3⟩ = _
    rw [scrape_outer_step c6cfg (scrape_fn c6cfg env) urls 7
      ⟨[], [], 3⟩ ⟨[], urls.take 3, 3⟩ false (by exact ⟨by simp [c6cfg], by simp [c6cfg]⟩) e3]
    rw [if_pos (by simp [c6cfg])]
  have s2 : scrape_outer c6cfg (scrape_fn c6cfg env) urls 7
      ⟨[], urls.take 3, 4⟩ =
      scrape_outer c6cfg (scrape_fn c6cfg env) urls 6
        ⟨[], urls.take 4, 5⟩ := by
    rw [scrape_outer_step c6cfg (scrape_fn c6cfg env) urls 6
      ⟨[], urls.take 3, 4⟩ ⟨[], urls.take 4, 4⟩ false
      (by exact ⟨by simp [c6cfg], by simp [c6cfg]⟩) e4]
    rw [if_pos (by simp [c6cfg])]
  have s3 : scrape_outer c6cfg (scrape_fn c6cfg env) urls 6
      ⟨[], urls.take 4, 5⟩ =
      ⟨[⟨urls.get ⟨4, h5⟩, pyTake md 12000⟩], urls.take 5, 5⟩ := by
    rw [scrape_outer_step c6cfg (scrape_fn c6cfg env) urls 5
      ⟨[], urls.take 4, 5⟩
      ⟨[⟨urls.get ⟨4, h5⟩, pyTake md 12000⟩], urls.take 5, 5⟩ true
      (by exact ⟨by simp [c6cfg], by simp [c6cfg]⟩) e5]
    rw [if_neg (by simp [c6cfg])]
  refine ⟨s1.trans (s2.trans s3), ?_, htakeNodup 5⟩
  rw [List.length_take]
  omega

/-- Ten distinct urls for the C6 witness. -/
def c6urls : List String :=
  ["v1", "v2", "v3", "v4", "v5", "v6", "v7", "v8", "v9", "v10"]

/-- Oracle for the C6 witness: only the 5th url scrapes successfully. -/
def c6env : ItemEnv :=
  { searchAttempts := fun _ => .ok (.slist (c6urls.map (fun u => ⟨some u⟩))),
    scrapeAttempts := fun u _ =>
      if u = "v5" then .ok (.document (some "FIFTH PAGE"))
      else .ok .nonDocument,
    gemini := .raises "unused" }

/-- Witness for C6 at ten concrete urls. -/
theorem widening_to_fifth_url_witness :
    scrape_loop c6cfg (scrape_fn c6cfg c6env) c6urls =
      ⟨[⟨c6urls.get ⟨4, by decide⟩, pyTake "FIFTH PAGE" 12000⟩],
        c6urls.take 5, 5⟩ ∧
    (c6urls.take 5).length = 5 ∧
    (c6urls.take 5).Nodup :=
  widening_to_fifth_url c6urls c6env "FIFTH PAGE" (by decide) (by decide)
    (by decide) (by decide)

/-- Writing one key of a dict leaves every other key's value unchanged. -/
theorem dictSet_get_ne (d : List (String × PyVal)) (k k' : String)
    (v : PyVal) (hne : k' ≠ k) :
    dictGet? (dictSet d k v) k' = dictGet? d k' := by
  induction d with
  | nil =>
    simp only [dictSet, dictGet?, List.find?]
    rw [decide_eq_false (fun h => hne h.symm)]
  | cons kv rest ih =>
    by_cases hk : kv.1 = k
    · simp only [dictSet, dictGet?]
      rw [if_pos hk]
      by_cases hk' : kv.1 = k'
      · exact absurd (hk' ▸ hk) hne
      · simp [List.find?, hk', hk ▸ hne.symm]
    · simp only [dictSet, dictGet?]
      rw [if_neg hk]
      by_cases hk' : kv.1 = k'
      · simp [List.find?, hk']
      · simp only [List.find?, hk']
        simpa [dictGet?] using ih

/-- Writing one key of a dict keeps the key order, appending the key at
the end only when it was absent. -/
theorem dictSet_keys (d : List (String × PyVal)) (k : String) (v : PyVal) :
    List.map Prod.fst (dictSet d k v) =
      (if k ∈ List.map Prod.fst d then List.map Prod.fst d
       else List.map Prod.fst d ++ [k]) := by
  induction d with
  | nil => simp [dictSet]
  | cons kv rest ih =>
    by_cases hk : kv.1 = k
    · simp only [dictSet]
      rw [if_pos hk]
      simp [hk]
    · simp only [dictSet]
      rw [if_neg hk]
      simp only [List.map_cons, ih]
      by_cases hmem : k ∈ List.map Prod.fst rest
      · rw [if_pos hmem, if_pos (by simp [hmem])]
      · rw [if_neg hmem, if_neg (by
          simp only [List.mem_cons, List.mem_map]
          rintro (h | h)
          · exact hk h.symm
          · exact hmem (by simpa using h))]
        simp

/-- Per-item frame conditions: an item with a falsy or missing `sub_query`
is returned untouched; otherwise only the `ideal_content_profile` key is
written (every other key keeps its value, and the key order is preserved
with at most that one key appended). -/
theorem process_item_frame (cfg : Config) (env : ItemEnv) (item : Item) :
    (¬ pyTruthy (itemGet item "sub_query") = true →
      (process_item cfg env item).1 = item) ∧
    (∀ k, k ≠ "ideal_content_profile" →
      dictGet? (process_item cfg env item).1 k = dictGet? item k) ∧
    (List.map Prod.fst (process_item cfg env item).1 =
        List.map Prod.fst item ∨
      List.map Prod.fst (process_item cfg env item).1 =
        List.map Prod.fst item ++ ["ideal_content_profile"]) := by
  by_cases hsub : pyTruthy (itemGet item "sub_query") = true
  · have hset : ∃ prof, (process_item cfg env item).1 =
        dictSet item "ideal_content_profile" prof := by
      unfold process_item
      rw [if_neg (by simp [hsub])]
      rcases hb : process_item_body cfg env with ⟨r, g⟩
      cases r with
      | ok prof => exact ⟨prof, rfl⟩
      | error e => exact ⟨err_profile e, rfl⟩
    obtain ⟨prof, hprof⟩ := hset
    refine ⟨fun hc => absurd hsub hc, ?_, ?_⟩
    · intro k hk
      rw [hprof]
      exact dictSet_get_ne item "ideal_content_profile" k prof hk
    · rw [hprof, dictSet_keys]
      by_cases hmem : "ideal_content_profile" ∈ List.map Prod.fst item
      · exact Or.inl (by rw [if_pos hmem])
      · exact Or.inr (by rw [if_neg hmem])
  · have : process_item cfg env item = (item, false) := by
      unfold process_item
      rw [if_pos (by simp [hsub])]
    rw [this]
    exact ⟨fun _ => rfl, fun k _ => rfl, Or.inl rfl⟩

/-- The per-item loop: output length matches, and the `j`-th output item
is the processing of the `j`-th input item with its own oracle — items are
processed independently, and the item results do not depend on the cost
tracker. -/
theorem profile_items_spec (cfg : Config) (envs : ℕ → ItemEnv) :
    ∀ (items : List Item) (i : ℕ) (st : CostTracker),
      (profile_items cfg envs i st items).1.length = items.length ∧
      ∀ j, (profile_items cfg envs i st items).1.get? j =
        (items.get? j).map (fun it => (process_item cfg (envs (i + j)) it).1) := by
  intro items
  induction items with
  | nil => intro i st; simp [profile_items]
  | cons item rest ih =>
    intro i st
    simp only [profile_items]
    constructor
    · simp [(ih (i + 1) _).1]
    · intro j
      cases j with
      | zero => simp
      | succ j =>
        simp only [List.get?_cons_succ]
        rw [(ih (i + 1) _).2 j]
        have : i + 1 + j = i + (j + 1) := by omega
        rw [this]

/-- Stage entry: an uninitialized Firecrawl client raises
`ConnectionError`; otherwise the stage returns the per-item loop's result
(including the empty-input short-circuit). -/
theorem profiling_entry (cfg : Config) (envs : ℕ → ItemEnv)
    (st : CostTracker) (items : List Item) :
    profile_content_competitively cfg false envs st items =
      .error "Firecrawl client is not initialized." ∧
    profile_content_competitively cfg true envs st items =
      .ok (profile_items cfg envs 0 st items) := by
  constructor
  · rfl
  · unfold profile_content_competitively
    rw [if_neg (by simp)]
    by_cases hempty : items.isEmpty
    · rw [if_pos hempty]
      rw [List.isEmpty_iff] at hempty
      subst hempty
      rfl
    · rw [if_neg hempty]

/-- C4: the competitive profiling stage isolates per-item failures.  With
an uninitialized client it raises at entry (the only fatal error); once
entered it always returns a value (never raises — every per-item exception
is a caught `Except` value), the returned list has one output per input
item, the `j`-th output depends only on the `j`-th input and its oracle
(so one item's failure cannot abort the rest), and any exception `e`
raised inside an item's body is recorded on that item as
`ideal_content_profile = {"error": e}`. -/
theorem profiling_isolation (cfg : Config) (envs : ℕ → ItemEnv)
    (st : CostTracker) (items : List Item) :
    profile_content_competitively cfg false envs st items =
      .error "Firecrawl client is not initialized." ∧
    profile_content_competitively cfg true envs st items =
      .ok (profile_items cfg envs 0 st items) ∧
    (profile_items cfg envs 0 st items).1.length = items.length ∧
    (∀ j, (profile_items cfg envs 0 st items).1.get? j =
      (items.get? j).map (fun it => (process_item cfg (envs j) it).1)) ∧
    (∀ (env : ItemEnv) (item : Item) (e : String),
      pyTruthy (itemGet item "sub_query") = true →
      (process_item_body cfg env).1 = .error e →
      process_item cfg env item =
        (dictSet item "ideal_content_profile" (err_profile e),
         (process_item_body cfg env).2)) := by
  refine ⟨(profiling_entry cfg envs st items).1,
    (profiling_entry cfg envs st items).2,
    (profile_items_spec cfg envs items 0 st).1,
    fun j => by simpa using (profile_items_spec cfg envs items 0 st).2 j,
    ?_⟩
  intro env item e hsub herr
  unfold process_item
  rw [if_neg (by simp [hsub])]
  rcases hb : process_item_body cfg env with ⟨r, g⟩
  rw [hb] at herr
  dsimp only at herr
  subst herr
  rfl

/-- Oracle for the C4 witness: the search call raises a non-rate-limit
error, so the item's body raises. -/
def c4wenv : ItemEnv :=
  { searchAttempts := fun _ => .err "firecrawl search blew up",
    scrapeAttempts := fun _ _ => .ok .nonDocument,
    gemini := .raises "unused" }

/-- A routed item for the C4 witness. -/
def c4witem : Item := [("sub_query", .str "boat storage near me")]

/-- Witness for C4: a concrete item whose search raises gets the error
profile, with no synthesis call. -/
theorem profiling_isolation_witness :
    process_item defaultConfig c4wenv c4witem =
      (dictSet c4witem "ideal_content_profile"
        (err_profile "firecrawl search blew up"), false) :=
  (profiling_isolation defaultConfig (fun _ => c4wenv) initCostTracker
    [c4witem]).2.2.2.2 c4wenv c4witem "firecrawl search blew up"
    (by decide) rfl

/-- C10: `profile_content_competitively` returns the mutated-in-place
input list, embedded positionally: the stage returns exactly the per-item
loop's list, of the same length, whose `j`-th element is the `j`-th input
item updated.  Every item whose `sub_query` is missing or falsy is
returned completely unchanged (no `ideal_content_profile` key added), and
for every other item the only key added or modified is
`ideal_content_profile`: all other keys keep their values and the key
order is preserved, with at most that one key appended at the end. -/
theorem profiling_frame (cfg : Config) (envs : ℕ → ItemEnv)
    (st : CostTracker) (items : List Item) :
    profile_content_competitively cfg true envs st items =
      .ok (profile_items cfg envs 0 st items) ∧
    (profile_items cfg envs 0 st items).1.length = items.length ∧
    (∀ j, (profile_items cfg envs 0 st items).1.get? j =
      (items.get? j).map (fun it => (process_item cfg (envs j) it).1)) ∧
    (∀ (env : ItemEnv) (item : Item),
      (¬ pyTruthy (itemGet item "sub_query") = true →
        (process_item cfg env item).1 = item) ∧
      (∀ k, k ≠ "ideal_content_profile" →
        dictGet? (process_item cfg env item).1 k = dictGet? item k) ∧
      (List.map Prod.fst (process_item cfg env item).1 =
          List.map Prod.fst item ∨
        List.map Prod.fst (process_item cfg env item).1 =
          List.map Prod.fst item ++ ["ideal_content_profile"])) :=
  ⟨(profiling_entry cfg envs st items).2,
   (profile_items_spec cfg envs items 0 st).1,
   fun j => by simpa using (profile_items_spec cfg envs items 0 st).2 j,
   fun env item => process_item_frame cfg env item⟩

/-- Oracle for the C10 witness. -/
def c10env : ItemEnv :=
  { searchAttempts := fun _ => .err "search down",
    scrapeAttempts := fun _ _ => .ok .nonDocument,
    gemini := .raises "unused" }

/-- An item with no `sub_query` key, skipped by the stage. -/
def c10item_nosub : Item := [("predicted_modality", .str "tables")]

/-- An item with a `sub_query` and one extra key. -/
def c10item : Item :=
  [("sub_query", .str "wine storage temperature"),
   ("predicted_modality", .str "tables")]

/-- Witness for C10 at two concrete items, one without `sub_query`. -/
theorem profiling_frame_witness :
    (process_item defaultConfig c10env c10item_nosub).1 = c10item_nosub ∧
    dictGet? (process_item defaultConfig c10env c10item).1
      "predicted_modality" = dictGet? c10item "predicted_modality" ∧
    (profile_items defaultConfig (fun _ => c10env) 0 initCostTracker
      [c10item_nosub, c10item]).1.length = 2 := by
  refine ⟨((profiling_frame defaultConfig (fun _ => c10env) initCostTracker
      [c10item_nosub, c10item]).2.2.2 c10env c10item_nosub).1 (by decide),
    ((profiling_frame defaultConfig (fun _ => c10env) initCostTracker
      [c10item_nosub, c10item]).2.2.2 c10env c10item).2.1
      "predicted_modality" (by decide),
    (profiling_frame defaultConfig (fun _ => c10env) initCostTracker
      [c10item_nosub, c10item]).2.1⟩

/-- Appending a member to a cluster extends exactly that cluster's list. -/
theorem clusterMembers_appendMember_same :
    ∀ (acc : List (String × List Item)) (name : String) (p : Item),
      clusterMembers (appendMember acc name p) name =
        clusterMembers acc name ++ [p] := by
  intro acc
  induction acc with
  | nil => intro name p; simp [appendMember, clusterMembers, List.find?]
  | cons kv rest ih =>
    intro name p
    by_cases hk : kv.1 = name
    · rcases kv with ⟨n, ms⟩
      simp only at hk
      subst hk
      simp [appendMember, clusterMembers, List.find?]
    · rcases kv with ⟨n, ms⟩
      simp only at hk
      simp only [appendMember, if_neg hk]
      simp only [clusterMembers, List.find?]
      rw [decide_eq_false hk]
      exact ih name p

/-- Appending a member to one cluster leaves every other cluster's list
unchanged. -/
theorem clusterMembers_appendMember_ne :
    ∀ (acc : List (String × List Item)) (name n' : String) (p : Item),
      n' ≠ name →
      clusterMembers (appendMember acc name p) n' =
        clusterMembers acc n' := by
  intro acc
  induction acc with
  | nil =>
    intro name n' p hne
    simp only [appendMember, clusterMembers, List.find?]
    rw [decide_eq_false (fun h => hne h.symm)]
  | cons kv rest ih =>
    intro name n' p hne
    rcases kv with ⟨n, ms⟩
    by_cases hk : n = name
    · subst hk
      simp only [appendMember, if_pos rfl]
      simp only [clusterMembers, List.find?]
      rw [decide_eq_false (fun h => hne h.symm)]
    · simp only [appendMember, if_neg hk]
      simp only [clusterMembers, List.find?]
      by_cases hn' : n = n'
      · rw [decide_eq_true hn']
      · rw [decide_eq_false hn']
        exact ih name n' p hne

/-- Appending a member keeps the cluster-name order, adding the name at
the end only when it is new. -/
theorem appendMember_keys :
    ∀ (acc : List (String × List Item)) (name : String) (p : Item),
      List.map Prod.fst (appendMember acc name p) =
        (if name ∈ List.map Prod.fst acc then List.map Prod.fst acc
         else List.map Prod.fst acc ++ [name]) := by
  intro acc
  induction acc with
  | nil => intro name p; simp [appendMember]
  | cons kv rest ih =>
    intro name p
    rcases kv with ⟨n, ms⟩
    by_cases hk : n = name
    · subst hk
      simp [appendMember]
    · simp only [appendMember, if_neg hk, List.map_cons]
      rw [ih name p]
      by_cases hmem : name ∈ List.map Prod.fst rest
      · rw [if_pos hmem, if_pos (by simp [hmem])]
      · rw [if_neg hmem, if_neg (by
          simp only [List.mem_cons]
          rintro (h | h)
          · exact hk h.symm
          · exact hmem h)]
        simp

/-- Appending a member adds exactly one occurrence of the profile to the
multiset of all cluster members. -/
theorem appendMember_join_perm :
    ∀ (acc : List (String × List Item)) (name : String) (p : Item),
      ((appendMember acc name p).map Prod.snd).flatten.Perm
        ((acc.map Prod.snd).flatten ++ [p]) := by
  intro acc
  induction acc with
  | nil => intro name p; simp [appendMember]
  | cons kv rest ih =>
    intro name p
    rcases kv with ⟨n, ms⟩
    by_cases hk : n = name
    · subst hk
      simp only [appendMember, eq_self_iff_true, if_true, List.map_cons,
        List.flatten_cons]
      have h1 : (ms ++ [p]) ++ (List.map Prod.snd rest).flatten =
          ms ++ ([p] ++ (List.map Prod.snd rest).flatten) := by
        rw [List.append_assoc]
      rw [h1]
      refine List.Perm.trans
        (List.Perm.append_left ms List.perm_append_comm) ?_
      rw [← List.append_assoc]
    · simp only [appendMember, if_neg hk, List.map_cons, List.flatten_cons]
      refine List.Perm.trans (List.Perm.append_left ms (ih name p)) ?_
      rw [← List.append_assoc]

/-- The clustering fold: it succeeds on in-data-model profiles, keeps the
cluster names duplicate-free, sends each profile to the member list of the
cluster its sub-query is assigned to (in input order), and the members,
pooled over all clusters, are a permutation of the accumulated input. -/
theorem cluster_go_spec :
    ∀ (profiles : List Item) (acc : List (String × List Item)),
      (∀ p ∈ profiles, ∃ s, dictGet? p "sub_query" = some (PyVal.str s)) →
      ∃ C, cluster_go profiles acc = .ok C ∧
        ((acc.map Prod.fst).Nodup → (C.map Prod.fst).Nodup) ∧
        (∀ name, clusterMembers C name = clusterMembers acc name ++
          profiles.filter (fun p => item_assigned_cluster p = name)) ∧
        (C.map Prod.snd).flatten.Perm
          ((acc.map Prod.snd).flatten ++ profiles) := by
  intro profiles
  induction profiles with
  | nil =>
    intro acc _
    exact ⟨acc, rfl, fun h => h, fun name => by simp, by simp⟩
  | cons p rest ih =>
    intro acc hdata
    obtain ⟨s, hs⟩ := hdata p (List.mem_cons_self p rest)
    have hassigned : item_assigned_cluster p = assign_cluster (asciiLower s) := by
      unfold item_assigned_cluster
      rw [hs]
    obtain ⟨C, hC, hnd, hmem, hperm⟩ :=
      ih (appendMember acc (assign_cluster (asciiLower s)) p)
        (fun q hq => hdata q (List.mem_cons_of_mem p hq))
    refine ⟨C, ?_, ?_, ?_, ?_⟩
    · unfold cluster_go
      rw [hs]
      exact hC
    · intro hacc
      refine hnd ?_
      rw [appendMember_keys]
      by_cases hmem' : assign_cluster (asciiLower s) ∈ List.map Prod.fst acc
      · rwa [if_pos hmem']
      · rw [if_neg hmem']
        refine List.Nodup.append hacc (List.nodup_singleton _) ?_
        intro x hx hx'
        rw [List.mem_singleton] at hx'
        subst hx'
        exact hmem' hx
    · intro name
      rw [hmem name]
      by_cases hname : name = assign_cluster (asciiLower s)
      · subst hname
        rw [clusterMembers_appendMember_same]
        rw [List.filter_cons]
        rw [if_pos (by simp [hassigned])]
        simp
      · rw [clusterMembers_appendMember_ne acc _ name p hname]
        rw [List.filter_cons]
        rw [if_neg (by simp [hassigned]; exact fun h => hname h.symm)]
    · refine hperm.trans ?_
      refine List.Perm.trans
        (List.Perm.append_right rest (appendMember_join_perm acc _ p)) ?_
      rw [List.append_assoc]
      exact List.Perm.refl _

/-- `List.find?` returns the FIRST element satisfying the predicate: any
index satisfying it is preceded (or equalled) by the found one. -/
theorem find_first_of_pred {α : Type} (p : α → Bool) :
    ∀ (l : List α) (i : ℕ) (hi : i < l.length),
      p (l.get ⟨i, hi⟩) = true →
      ∃ j, ∃ hj : j < l.length, j ≤ i ∧ p (l.get ⟨j, hj⟩) = true ∧
        l.find? p = some (l.get ⟨j, hj⟩) := by
  intro l
  induction l with
  | nil => intro i hi; simp at hi
  | cons x rest ih =>
    intro i hi hp
    cases hx : p x with
    | true =>
      refine ⟨0, by simp, Nat.zero_le i, ?_, ?_⟩
      · simpa using hx
      · simp [List.find?, hx]
    | false =>
      cases i with
      | zero =>
        simp only [List.get] at hp
        rw [hp] at hx
        cases hx
      | succ i' =>
        obtain ⟨j, hj, hji, hpj, hfind⟩ :=
          ih i' (by simpa using hi) (by simpa using hp)
        refine ⟨j + 1, by simpa using hj, by omega, by simpa using hpj, ?_⟩
        simp [List.find?, hx, hfind]

/-- Priority: a sub-query matching the `i`-th cluster definition is
assigned to a matching definition declared at position `j ≤ i` — with two
or more matches, the first declared wins. -/
theorem assign_cluster_first_match (q : String) (i : ℕ)
    (hi : i < cluster_keywords.length)
    (hmatch : cluster_def_matches (cluster_keywords.get ⟨i, hi⟩).2 q = true) :
    ∃ j, ∃ hj : j < cluster_keywords.length, j ≤ i ∧
      cluster_def_matches (cluster_keywords.get ⟨j, hj⟩).2 q = true ∧
      assign_cluster q = (cluster_keywords.get ⟨j, hj⟩).1 := by
  obtain ⟨j, hj, hji, hpj, hfind⟩ :=
    find_first_of_pred (fun d => cluster_def_matches d.2 q)
      cluster_keywords i hi hmatch
  exact ⟨j, hj, hji, hpj, by unfold assign_cluster; rw [hfind]⟩

/-- A sub-query matching no cluster definition is assigned to the
catch-all cluster. -/
theorem assign_cluster_no_match (q : String)
    (hnone : ∀ d ∈ cluster_keywords, cluster_def_matches d.2 q = false) :
    assign_cluster q = generalCluster := by
  unfold assign_cluster
  rw [List.find?_eq_none.2 (fun d hd => by simp [hnone d hd])]

/-- C7: clustering is a total single-pass assignment.  For every input
list of profiles (each carrying a string `sub_query`, per the data model
guaranteed by the routing stage), `_cluster_subqueries` succeeds, each
profile occurrence lands in exactly one cluster (the pooled member lists
are a permutation of the input and cluster names are duplicate-free), the
cluster of a profile is the first declared definition whose keywords match
its lowercased sub-query at word boundaries — so a sub-query matching two
or more definitions goes to the earliest declared one — and a sub-query
matching none goes to the catch-all "General Information" cluster. -/
theorem cluster_assignment_total (profiles : List Item)
    (hdata : ∀ p ∈ profiles, ∃ s,
      dictGet? p "sub_query" = some (PyVal.str s)) :
    ∃ C, cluster_subqueries profiles = .ok C ∧
      (C.map Prod.fst).Nodup ∧
      (∀ name, clusterMembers C name =
        profiles.filter (fun p => item_assigned_cluster p = name)) ∧
      (C.map Prod.snd).flatten.Perm profiles ∧
      (∀ (q : String) (i : ℕ) (hi : i < cluster_keywords.length),
        cluster_def_matches (cluster_keywords.get ⟨i, hi⟩).2 q = true →
        ∃ j, ∃ hj : j < cluster_keywords.length, j ≤ i ∧
          cluster_def_matches (cluster_keywords.get ⟨j, hj⟩).2 q = true ∧
          assign_cluster q = (cluster_keywords.get ⟨j, hj⟩).1) ∧
      (∀ q : String,
        (∀ d ∈ cluster_keywords, cluster_def_matches d.2 q = false) →
        assign_cluster q = generalCluster) := by
  obtain ⟨C, hC, hnd, hmem, hperm⟩ := cluster_go_spec profiles [] hdata
  refine ⟨C, hC, hnd (by simp), ?_, ?_,
    assign_cluster_first_match, assign_cluster_no_match⟩
  · intro name
    rw [hmem name]
    simp [clusterMembers]
  · refine hperm.trans ?_
    simp

/-- Three profiles for the C7 witness: the first matches Cost and Sizing
(keywords `how much` and `cost`, case-insensitively at word boundaries),
the second matches nothing and falls to the catch-all, the third matches
Comparison and Alternatives (`best`). -/
def c7profiles : List Item :=
  [[("sub_query", .str "How Much does A storage unit cost")],
   [("sub_query", .str "midtown storage facilities")],
   [("sub_query", .str "best storage units")]]

/-- Witness for C7 at three concrete profiles. -/
theorem cluster_assignment_total_witness :
    ∃ C, cluster_subqueries c7profiles = .ok C ∧
      (C.map Prod.fst).Nodup ∧
      (∀ name, clusterMembers C name =
        c7profiles.filter (fun p => item_assigned_cluster p = name)) ∧
      (C.map Prod.snd).flatten.Perm c7profiles ∧
      (∀ (q : String) (i : ℕ) (hi : i < cluster_keywords.length),
        cluster_def_matches (cluster_keywords.get ⟨i, hi⟩).2 q = true →
        ∃ j, ∃ hj : j < cluster_keywords.length, j ≤ i ∧
          cluster_def_matches (cluster_keywords.get ⟨j, hj⟩).2 q = true ∧
          assign_cluster q = (cluster_keywords.get ⟨j, hj⟩).1) ∧
      (∀ q : String,
        (∀ d ∈ cluster_keywords, cluster_def_matches d.2 q = false) →
        assign_cluster q = generalCluster) :=
  cluster_assignment_total c7profiles (by
    intro p hp
    simp only [c7profiles, List.mem_cons, List.not_mem_nil, or_false] at hp
    rcases hp with rfl | rfl | rfl
    · exact ⟨"How Much does A storage unit cost", rfl⟩
    · exact ⟨"midtown storage facilities", rfl⟩
    · exact ⟨"best storage units", rfl⟩)
